import Mathlib

/-!
# Verification of the Idletris simulation core (`src/main.ts`)

Shallow embedding of the grid/piece state machine, collision and rotation
resolution, line clearing, the heuristic planner, the autonomous executor
and the board scheduler of the Idletris repository, together with proofs
and refutations of the frozen specification claims.

Conventions of the embedding:
* JS `number` indices and coordinates become `Int` where they can go
  negative (piece coordinates, wall-kick offsets) and `Nat` where they are
  loop counters.
* A grid cell (`string | null`) becomes `Option String`.
* A shape matrix of `0`/`1` entries becomes a matrix of `Bool`.
* In-place mutation of a board becomes functional record update; a JS
  function returning `boolean` while mutating its argument becomes a
  function returning `Board × Bool`.
* `getRandomPieceType()` is modelled by explicit piece-type parameters
  (`rnd1`, `rnd2`) supplied by the environment.
* Purely visual/DOM effects (`updateNextPiecePreview`, `flashEffect`,
  canvas drawing, overlays) are external collaborators and are omitted.
-/

namespace Idletris

/-- `GRID_WIDTH` in `main.ts`: number of columns. -/
def GRID_WIDTH : Nat := 10

/-- `GRID_HEIGHT` in `main.ts`: number of rows. -/
def GRID_HEIGHT : Nat := 20

/-- One grid cell: `null` or an opaque color token (`string | null`). -/
abbrev Cell := Option String

/-- The board grid: a list of rows, each a list of cells. -/
abbrev Grid := List (List Cell)

/-- A piece shape: a matrix of boolean occupancy flags (source: `number[][]`
with `0`/`1` entries, tested for truthiness). -/
abbrev Shape := List (List Bool)

/-- The seven piece types (`type PieceType` in `main.ts`). -/
inductive PieceType
  | I | O | T | S | Z | J | L
deriving DecidableEq, Repr

/-- A planner move target `{x, rotation}`. -/
structure Move where
  x : Int
  rotation : Nat
deriving DecidableEq, Repr

/-- `interface ActivePiece` plus the `aiRotations` counter that the source
attaches dynamically to the piece object (absent counts as `0`). The
`aiStartTime` wall-clock stamp is not modelled (see the executor section). -/
structure ActivePiece where
  type : PieceType
  shape : Shape
  x : Int
  y : Int
  color : String
  aiRotations : Nat
deriving DecidableEq, Repr

/-- `interface Board`, restricted to the simulation state. The DOM handles
(`canvas`, `container`), wall-clock timers (`lastDropTime`,
`aiLastMoveTime`, `aiSpeed`) and display flags (`isMaxedOut`,
`isMinified`) are external to the state machine and omitted. -/
structure Board where
  index : Nat
  grid : Grid
  currentPiece : Option ActivePiece
  nextPiece : Option PieceType
  isGameOver : Bool
  aiHired : Bool
  aiEnabled : Bool
  aiHardDropUnlocked : Bool
  aiSpeedLevel : Nat
  aiTargetPosition : Option Move
  aiMoving : Bool
  forceNextPieceUnlocked : Bool
  playerControlPiecesRemaining : Nat
deriving DecidableEq, Repr

/-- `PIECES`: the canonical shape matrix for each type. -/
def pieceShape : PieceType → Shape
  | .I => [[false, false, false, false],
           [true,  true,  true,  true ],
           [false, false, false, false],
           [false, false, false, false]]
  | .O => [[true, true],
           [true, true]]
  | .T => [[false, true,  false],
           [true,  true,  true ],
           [false, false, false]]
  | .S => [[false, true,  true ],
           [true,  true,  false],
           [false, false, false]]
  | .Z => [[true,  true,  false],
           [false, true,  true ],
           [false, false, false]]
  | .J => [[true,  false, false],
           [true,  true,  true ],
           [false, false, false]]
  | .L => [[false, false, true ],
           [true,  true,  true ],
           [false, false, false]]

/-- `PIECE_COLORS`. -/
def pieceColor : PieceType → String
  | .I => "#00F0F0"
  | .O => "#F0F000"
  | .T => "#A000F0"
  | .S => "#00F000"
  | .Z => "#F00000"
  | .J => "#0000F0"
  | .L => "#F0A000"

/-- Row `r` of a shape (`shape[row]`; out-of-range reads give `[]`, which
makes every cell read on it `false`, matching JS `undefined` falsiness). -/
def rowAt (s : Shape) (r : Nat) : List Bool := (s[r]?).getD []

/-- Cell `(r, c)` of a shape (`shape[row][col]` truthiness). -/
def shapeCell (s : Shape) (r c : Nat) : Bool := ((rowAt s r)[c]?).getD false

/-- `createEmptyGrid()`. -/
def createEmptyGrid : Grid :=
  List.replicate GRID_HEIGHT (List.replicate GRID_WIDTH (none : Cell))

/-- `createBoard(index)` (simulation fields only). -/
def createBoard (index : Nat) : Board where
  index := index
  grid := createEmptyGrid
  currentPiece := none
  nextPiece := none
  isGameOver := false
  aiHired := false
  aiEnabled := false
  aiHardDropUnlocked := false
  aiSpeedLevel := 0
  aiTargetPosition := none
  aiMoving := false
  forceNextPieceUnlocked := false
  playerControlPiecesRemaining := 0

/-- `createPiece(type)`: fresh copy of the canonical shape, centered
horizontally (`Math.floor(GRID_WIDTH / 2) - Math.floor(shape[0].length / 2)`). -/
def createPiece (t : PieceType) : ActivePiece :=
  let shape := pieceShape t
  { type := t
    shape := shape
    x := (GRID_WIDTH / 2 : Nat) - ((rowAt shape 0).length / 2 : Nat)
    y := 0
    color := pieceColor t
    aiRotations := 0 }

/-- `rotateShape(shape)`: clockwise rotation. The source builds, for each
column `col`, the row `[shape[rows-1][col], …, shape[0][col]]`; entry `i`
of that row is `shape[rows-1-i][col]`. -/
def rotateShape (shape : Shape) : Shape :=
  let rows := shape.length
  let cols := (rowAt shape 0).length
  (List.range cols).map fun col =>
    (List.range rows).map fun i => shapeCell shape (rows - 1 - i) col

/-- `rotateShape` applied `n` times (the `for (r = 0; r < rotation; r++)`
loops in `simulateMove` and `calculateBestMove`). -/
def rotN : Nat → Shape → Shape
  | 0, s => s
  | n + 1, s => rotN n (rotateShape s)

/-- `rotateShape(shape)` including its error path: the source first reads
`shape[0].length`, which throws a TypeError when the shape has no rows
(`shape[0]` is `undefined`); `none` models that throw. On a shape with at
least one row the call returns normally, with the value computed by
`rotateShape`. -/
def rotateShapeT (shape : Shape) : Option Shape :=
  match shape with
  | [] => none
  | _ :: _ => some (rotateShape shape)

/-- Four successive `rotateShape` calls with the error path threaded
through: `none` as soon as one of the four throws. -/
def rotateShape4 (s : Shape) : Option Shape :=
  (((rotateShapeT s).bind rotateShapeT).bind rotateShapeT).bind rotateShapeT

/-- Read grid cell at signed coordinates; only meaningful for in-range
coordinates (the source indexes only inside its bound checks). -/
def cellAt (g : Grid) (y x : Int) : Cell :=
  if 0 ≤ y ∧ 0 ≤ x then (((g[y.toNat]?).getD [])[x.toNat]?).getD none else none

/-- The shared collision test of `checkCollision` / `checkCollisionForTest`:
for every occupied shape cell, collision if x out of `[0, W)`, y ≥ H, or
y ≥ 0 and the grid cell is occupied. -/
def collides (p : ActivePiece) (g : Grid) : Bool :=
  (List.range p.shape.length).any fun row =>
    (List.range (rowAt p.shape row).length).any fun col =>
      shapeCell p.shape row col &&
        (decide (p.x + (col : Int) < 0) ||
         decide ((GRID_WIDTH : Int) ≤ p.x + (col : Int)) ||
         decide ((GRID_HEIGHT : Int) ≤ p.y + (row : Int)) ||
         (decide (0 ≤ p.y + (row : Int)) &&
           (cellAt g (p.y + (row : Int)) (p.x + (col : Int))).isSome))

/-- `checkCollision(board)`: `false` when there is no current piece. -/
def checkCollision (b : Board) : Bool :=
  match b.currentPiece with
  | none => false
  | some p => collides p b.grid

/-- `checkCollisionForTest(piece, testGrid)` has the same cell logic as
`checkCollision`, against an explicit grid. -/
def checkCollisionForTest (p : ActivePiece) (testGrid : Grid) : Bool :=
  collides p testGrid

/-- Write one grid cell (`board.grid[y][x] = color` under the source's
bound guard; `List.set` is the in-place row/column update). -/
def setCell (g : Grid) (y x : Nat) (v : Cell) : Grid :=
  match g[y]? with
  | none => g
  | some row => g.set y (row.set x v)

/-- The stamping loops shared by `lockPiece` and `simulateMove`: write the
piece color into every occupied, in-bounds cell. -/
def stampPiece (p : ActivePiece) (g : Grid) : Grid :=
  (List.range p.shape.length).foldl
    (fun g1 row =>
      (List.range (rowAt p.shape row).length).foldl
        (fun g2 col =>
          if shapeCell p.shape row col then
            let bY := p.y + (row : Int)
            let bX := p.x + (col : Int)
            if 0 ≤ bY ∧ bY < (GRID_HEIGHT : Int) ∧ 0 ≤ bX ∧ bX < (GRID_WIDTH : Int) then
              setCell g2 bY.toNat bX.toNat (some p.color)
            else g2
          else g2)
        g1)
    g

/-- The full-row test of `clearLines`: every column `0 ≤ col < GRID_WIDTH`
of the row holds a truthy cell. -/
def isFullRow (row : List Cell) : Bool :=
  (List.range GRID_WIDTH).all fun col => ((row[col]?).getD none).isSome

/-- Row `r` of the grid is full (`board.grid[row]` in the scan). -/
def isFullAt (g : Grid) (r : Nat) : Bool := isFullRow ((g[r]?).getD [])

/-- The empty row spliced in at the top by `clearLines`. -/
def emptyRow : List Cell := List.replicate GRID_WIDTH (none : Cell)

/-- Number of full rows of a grid (termination measure for the scan). -/
def countFull (g : Grid) : Nat := (g.filter isFullRow).length

theorem isFullRow_emptyRow : isFullRow emptyRow = false := by decide

theorem isFullAt_lt_length {g : Grid} {r : Nat} (h : isFullAt g r = true) :
    r < g.length := by
  by_contra hlt
  have : g[r]? = none := by
    exact List.getElem?_eq_none (by omega)
  rw [isFullAt, this] at h
  simp only [Option.getD_none] at h
  have : isFullRow ([] : List Cell) = false := by decide
  rw [this] at h
  exact Bool.noConfusion h

theorem countFull_eraseIdx {g : Grid} {r : Nat} (h : isFullAt g r = true) :
    countFull (g.eraseIdx r) + 1 = countFull g := by
  induction g generalizing r with
  | nil => exact absurd (isFullAt_lt_length h) (by simp)
  | cons row g ih =>
    cases r with
    | zero =>
      have hrow : isFullRow row = true := by
        simpa [isFullAt] using h
      simp [List.eraseIdx, countFull, List.filter_cons, hrow]
    | succ r =>
      have h' : isFullAt g r = true := by
        simpa [isFullAt] using h
      have := ih h'
      simp only [List.eraseIdx, countFull, List.filter_cons]
      cases hrow : isFullRow row <;>
        simpa [countFull, hrow] using this

theorem countFull_cons_emptyRow (g : Grid) :
    countFull (emptyRow :: g) = countFull g := by
  simp [countFull, List.filter_cons, isFullRow_emptyRow]

/-- The bottom-to-top scan of `clearLines`. `r1` is the current row index
plus one (`r1 = 0` means the scan has passed row 0 and stops). On a full
row the source splices the row out, unshifts an empty row, and re-examines
the same index (`row++` before the loop's `row--`). The structural `fuel`
argument bounds the iteration count; every full-row step removes one full
row and every other step lowers the index, so `countFull g + r1`
iterations always suffice (the exhaustion branch is unreachable for the
fuel passed by `clearLinesG`, as the spec lemma below proves). -/
def clearLinesAux : Nat → Grid → Nat → Nat → Grid × Nat
  | 0, g, _, acc => (g, acc)
  | _ + 1, g, 0, acc => (g, acc)
  | fuel + 1, g, r + 1, acc =>
    if isFullAt g r then
      clearLinesAux fuel (emptyRow :: g.eraseIdx r) (r + 1) (acc + 1)
    else
      clearLinesAux fuel g r acc

/-- `clearLines(board)` restricted to its grid effect and returned count
(the points/notification side effects are external collaborators). -/
def clearLinesG (g : Grid) : Grid × Nat :=
  clearLinesAux (countFull g + GRID_HEIGHT) g GRID_HEIGHT 0

/-- `handleBoardGameOver(board)`, board-local part: mark game over, discard
the piece, and if the AI was enabled clear the AI flags. The remaining
branches (game-over screen for the focused board, lost-board overlay, the
prestige auto-reset) notify external collaborators and are outside the
board state machine. -/
def handleBoardGameOver (b : Board) : Board :=
  let b1 := { b with isGameOver := true, currentPiece := none }
  if b1.aiEnabled then
    { b1 with aiEnabled := false, aiTargetPosition := none, aiMoving := false }
  else b1

/-- `spawnNewPiece(board)`: take the queued type (or the random draw
`rnd1`), queue the random draw `rnd2`, create the piece; on immediate
collision transition to game over, otherwise reset the per-piece AI state. -/
def spawnNewPiece (b : Board) (rnd1 rnd2 : PieceType) : Board :=
  let pieceType := b.nextPiece.getD rnd1
  let b1 := { b with nextPiece := some rnd2, currentPiece := some (createPiece pieceType) }
  if checkCollision b1 then
    handleBoardGameOver b1
  else
    { b1 with aiTargetPosition := none, aiMoving := false }

/-- `lockPiece(board)`: stamp the piece into the grid, discard it, clear
lines, and run the Take Control countdown (re-enabling the AI at zero). -/
def lockPiece (b : Board) : Board :=
  match b.currentPiece with
  | none => b
  | some p =>
    let g := stampPiece p b.grid
    let gn := clearLinesG g
    let b1 := { b with grid := gn.1, currentPiece := none }
    if 0 < b1.playerControlPiecesRemaining then
      let rem := b1.playerControlPiecesRemaining - 1
      if rem = 0 then
        { b1 with playerControlPiecesRemaining := 0, aiEnabled := true }
      else
        { b1 with playerControlPiecesRemaining := rem }
    else b1

/-- `movePieceDown(board)`: advance y; on collision revert, lock and spawn
(returning `false`), else keep (returning `true`). -/
def movePieceDown (b : Board) (rnd1 rnd2 : PieceType) : Board × Bool :=
  match b.currentPiece with
  | none => (b, false)
  | some p =>
    let p1 := { p with y := p.y + 1 }
    if collides p1 b.grid then
      (spawnNewPiece (lockPiece b) rnd1 rnd2, false)
    else
      ({ b with currentPiece := some p1 }, true)

/-- `movePieceHorizontally(board, direction)`. -/
def movePieceHorizontally (b : Board) (direction : Int) : Board × Bool :=
  match b.currentPiece with
  | none => (b, false)
  | some p =>
    let p1 := { p with x := p.x + direction }
    if collides p1 b.grid then (b, false)
    else ({ b with currentPiece := some p1 }, true)

/-- `rotatePiece(board)`: no-op for `O`; otherwise rotate in place, then
try wall kicks `+1, -1, +2, -2`, then the floor kick `y - 1`; keep the
first non-colliding attempt, else revert everything and return `false`. -/
def rotatePiece (b : Board) : Board × Bool :=
  match b.currentPiece with
  | none => (b, false)
  | some p =>
    if p.type = PieceType.O then (b, false)
    else
      let rotated := { p with shape := rotateShape p.shape }
      if !collides rotated b.grid then
        ({ b with currentPiece := some rotated }, true)
      else
        let k1 := { rotated with x := p.x + 1 }
        if !collides k1 b.grid then ({ b with currentPiece := some k1 }, true)
        else
          let k2 := { rotated with x := p.x - 1 }
          if !collides k2 b.grid then ({ b with currentPiece := some k2 }, true)
          else
            let k3 := { rotated with x := p.x + 2 }
            if !collides k3 b.grid then ({ b with currentPiece := some k3 }, true)
            else
              let k4 := { rotated with x := p.x - 2 }
              if !collides k4 b.grid then ({ b with currentPiece := some k4 }, true)
              else
                let fk := { rotated with y := p.y - 1 }
                if !collides fk b.grid then ({ b with currentPiece := some fk }, true)
                else (b, false)

/-- The `while (!checkCollision) y++` descent shared by `hardDrop` and
`simulateMove`: the least colliding y at or above the start position. The
source loop runs unbounded; it terminates exactly when the shape has at
least one occupied cell (then every y ≥ GRID_HEIGHT collides), and the
fuel passed below always covers that case. -/
def dropLoop (g : Grid) (p : ActivePiece) : Nat → Int → Int
  | 0, y => y
  | fuel + 1, y =>
    if collides { p with y := y } g then y
    else dropLoop g p fuel (y + 1)

/-- `hardDrop(board)`: drop to rest (one above the first colliding y),
lock, spawn. -/
def hardDrop (b : Board) (rnd1 rnd2 : PieceType) : Board :=
  match b.currentPiece with
  | none => b
  | some p =>
    let yStop := dropLoop b.grid p ((GRID_HEIGHT + 1 - p.y).toNat + 1) p.y
    spawnNewPiece (lockPiece { b with currentPiece := some { p with y := yStop - 1 } }) rnd1 rnd2

/-- The `testPiece` literal built inside `simulateMove`: the piece rotated
`rotation` times, at `(targetX, 0)`. -/
def testPieceOf (piece : ActivePiece) (targetX : Int) (rotation : Nat) : ActivePiece :=
  { type := piece.type, shape := rotN rotation piece.shape, x := targetX, y := 0
    color := piece.color, aiRotations := 0 }

/-- `simulateMove(board, piece, targetX, rotation)`: on a cloned grid,
place the piece rotated `rotation` times at `(targetX, 0)`; `null` if that
already collides, else drop to rest, stamp, and return the clone. -/
def simulateMove (g : Grid) (piece : ActivePiece) (targetX : Int) (rotation : Nat) :
    Option Grid :=
  let testPiece := testPieceOf piece targetX rotation
  if collides testPiece g then none
  else
    let yStop := dropLoop g testPiece (GRID_HEIGHT + 2) 0
    some (stampPiece { testPiece with y := yStop - 1 } g)

/-- Complete-line count of `evaluateBoardState` (rows 0..GRID_HEIGHT-1,
columns 0..GRID_WIDTH-1). -/
def completeLines (g : Grid) : Nat :=
  ((List.range GRID_HEIGHT).filter fun row => isFullAt g row).length

/-- The per-column height scan of `evaluateBoardState`: `GRID_HEIGHT - row`
for the first occupied row, `0` for an empty column. -/
def columnHeight (g : Grid) (col : Nat) : Nat :=
  match (List.range GRID_HEIGHT).find? (fun (row : Nat) => (cellAt g row col).isSome) with
  | some row => GRID_HEIGHT - row
  | none => 0

/-- The max-height loop of `evaluateBoardState`. -/
def maxHeightOf (g : Grid) : Nat :=
  (List.range GRID_WIDTH).foldl (fun m col => max m (columnHeight g col)) 0

/-- The covered-hole loop of `evaluateBoardState` for one column: empty
cells below some occupied cell. -/
def holesInCol (g : Grid) (col : Nat) : Nat :=
  ((List.range GRID_HEIGHT).foldl
    (fun (st : Bool × Nat) row =>
      if (cellAt g row col).isSome then (true, st.2)
      else if st.1 then (st.1, st.2 + 1) else st)
    (false, 0)).2

/-- Total covered holes. -/
def holesOf (g : Grid) : Nat :=
  (List.range GRID_WIDTH).foldl (fun h col => h + holesInCol g col) 0

/-- The bumpiness loop of `evaluateBoardState`: sum of absolute height
differences of adjacent columns (`prevHeight` starts at 0, column 0 adds
nothing). -/
def bumpinessOf (g : Grid) : Nat :=
  ((List.range GRID_WIDTH).foldl
    (fun (st : Nat × Nat) col =>
      let h := columnHeight g col
      (h, if 0 < col then st.2 + (max h st.1 - min h st.1) else st.2))
    (0, 0)).2

/-- `evaluateBoardState(testBoard)`:
`1000·lines − 10·maxHeight − 50·holes − 5·bumpiness`. -/
def evaluateBoardState (g : Grid) : Int :=
  (completeLines g : Int) * 1000 - (maxHeightOf g : Int) * 10
    - (holesOf g : Int) * 50 - (bumpinessOf g : Int) * 5

/-- The bounding-box scan of `calculateBestMove`: fold over all shape
cells, starting from `(shape[0].length, -1)`, taking min/max of occupied
columns. -/
def minMaxCol (s : Shape) : Int × Int :=
  (List.range s.length).foldl
    (fun mm row =>
      (List.range (rowAt s row).length).foldl
        (fun (mm : Int × Int) col =>
          if shapeCell s row col then (min mm.1 (col : Int), max mm.2 (col : Int)) else mm)
        mm)
    (((rowAt s 0).length : Int), -1)

/-- The x-loop bounds of `calculateBestMove`:
`x` from `-leftOffset` to `GRID_WIDTH - actualWidth - leftOffset`. -/
def xCandidates (s : Shape) : List Int :=
  let mm := minMaxCol s
  let actualWidth := mm.2 - mm.1 + 1
  let leftOffset := mm.1
  let lo := -leftOffset
  let hi := (GRID_WIDTH : Int) - actualWidth - leftOffset
  (List.range (hi + 1 - lo).toNat).map fun (i : Nat) => lo + (i : Int)

/-- The body of the candidate loop of `calculateBestMove`. The JS
`bestScore` starts at `-Infinity`, below every real score, so the
accumulator is `none` until the first legal candidate; `score > bestScore`
keeps the first-found candidate on ties. -/
def planStep (g : Grid) (piece : ActivePiece) (rotation : Nat)
    (best : Option (Move × Int)) (x : Int) : Option (Move × Int) :=
  match simulateMove g piece x rotation with
  | none => best
  | some resultBoard =>
    let score := evaluateBoardState resultBoard
    match best with
    | none => some (⟨x, rotation⟩, score)
    | some pr => if score > pr.2 then some (⟨x, rotation⟩, score) else best

/-- The candidate fold of `calculateBestMove`: rotations ascending, then
x ascending. -/
def planFold (g : Grid) (piece : ActivePiece) (maxRotations : Nat) :
    Option (Move × Int) :=
  (List.range maxRotations).foldl
    (fun best rotation =>
      (xCandidates (rotN rotation piece.shape)).foldl (planStep g piece rotation) best)
    none

/-- `calculateBestMove(board)` without the trailing fallback: the best
scored legal `(x, rotation)`, or `none` when no candidate is legal. -/
def planPiece (g : Grid) (piece : ActivePiece) : Option Move :=
  let maxRotations := if piece.type = PieceType.O then 1 else 4
  match planFold g piece maxRotations with
  | some pr => some pr.1
  | none => none

/-- `calculateBestMove(board)`: `null` only without a current piece; when
the search finds nothing it falls back to
`{x: board.currentPiece.x, rotation: 0}`. -/
def calculateBestMove (b : Board) : Option Move :=
  match b.currentPiece with
  | none => none
  | some piece =>
    match planPiece b.grid piece with
    | some m => some m
    | none => some ⟨piece.x, 0⟩

/-- `executeAIMove(board)`: one executor action — rotate toward the target
rotation (snapping the counter on failure), else translate one step toward
the target column (falling back to a downward move and abandoning the
target when blocked), else drop (hard drop when unlocked, one downward
move otherwise) and clear the target. -/
def executeAIMove (b : Board) (rnd1 rnd2 : PieceType) : Board :=
  match b.currentPiece, b.aiTargetPosition with
  | some p, some tgt =>
    if !b.aiEnabled then b
    else if p.aiRotations < tgt.rotation then
      let br := rotatePiece b
      if br.2 then
        match br.1.currentPiece with
        | some p1 => { br.1 with currentPiece := some { p1 with aiRotations := p1.aiRotations + 1 } }
        | none => br.1
      else
        { b with currentPiece := some { p with aiRotations := tgt.rotation } }
    else if p.x ≠ tgt.x then
      let direction : Int := if tgt.x > p.x then 1 else -1
      let bm := movePieceHorizontally b direction
      if bm.2 then bm.1
      else
        let bd := (movePieceDown bm.1 rnd1 rnd2).1
        { bd with aiTargetPosition := none, aiMoving := false }
    else
      let bd := if b.aiHardDropUnlocked then hardDrop b rnd1 rnd2
                else (movePieceDown b rnd1 rnd2).1
      { bd with aiTargetPosition := none, aiMoving := false }
  | _, _ => b

/-- `updateAI(board, currentTime)` as one executor step with the cadence
gate open. The 5000 ms piece-age circuit breaker is keyed to a wall
clock, not to the step count, and is modelled as not firing during the
runs considered here (its firing only forces an extra downward move). -/
def stepAI (b : Board) (rnd1 rnd2 : PieceType) : Board :=
  if !b.aiEnabled then b
  else
    match b.currentPiece with
    | none => b
    | some _ =>
      if b.aiTargetPosition.isNone && !b.aiMoving then
        match calculateBestMove b with
        | none =>
          let b1 := { b with aiMoving := true }
          let b2 := (movePieceDown b1 rnd1 rnd2).1
          { b2 with aiMoving := false }
        | some tgt =>
          executeAIMove { b with aiTargetPosition := some tgt, aiMoving := true } rnd1 rnd2
      else
        executeAIMove b rnd1 rnd2

/-- One scheduler pass over a single board (the body of `gameLoop`'s
board loop): boards in game over are skipped entirely; AI boards take one
executor step; the focused human board receives gravity once its drop
timer has elapsed (`gravityDue`). -/
def boardTick (activeBoardIndex : Nat) (gravityDue : Bool) (b : Board)
    (rnd1 rnd2 : PieceType) : Board :=
  if b.isGameOver then b
  else if b.aiEnabled then stepAI b rnd1 rnd2
  else if b.index = activeBoardIndex && gravityDue then (movePieceDown b rnd1 rnd2).1
  else b

/-- The global session state touched by `forceNextPiece` (board list plus
the points/prestige globals it reads). -/
structure GameState where
  boards : List Board
  globalPoints : Int
  hasHalfCost : Bool
deriving DecidableEq, Repr

/-- `getBoardCost(baseCost, boardIndex)`: `baseCost · 2^boardIndex`,
halved and rounded (`Math.round`, half away from zero on these
nonnegative values, i.e. `(t + 1) / 2`) under the prestige discount. -/
def getBoardCost (baseCost : Nat) (boardIndex : Nat) (hasHalfCost : Bool) : Int :=
  let tiered := baseCost * 2 ^ boardIndex
  if hasHalfCost then ((tiered + 1) / 2 : Nat) else (tiered : Nat)

/-- `BASE_COSTS.FORCE_NEXT_PIECE_USE`. -/
def FORCE_NEXT_PIECE_USE : Nat := 1

/-- `forceNextPiece(boardIndex, pieceType)`: guarded by board existence,
the per-board unlock, a change of type, and affordability; deducts the
use cost and overwrites the queued next piece. -/
def forceNextPiece (s : GameState) (boardIndex : Nat) (pieceType : PieceType) :
    GameState :=
  match s.boards[boardIndex]? with
  | none => s
  | some b =>
    if !b.forceNextPieceUnlocked then s
    else if b.nextPiece = some pieceType then s
    else
      let cost := getBoardCost FORCE_NEXT_PIECE_USE boardIndex s.hasHalfCost
      if s.globalPoints < cost then s
      else
        { s with
            globalPoints := s.globalPoints - cost
            boards := s.boards.set boardIndex { b with nextPiece := some pieceType } }

/-- The rotation attempts of `rotatePiece` as position offsets, in source
order: in place, wall kicks `+1, -1, +2, -2`, floor kick `(0, -1)`. -/
def kickOffsets : List (Int × Int) := [(0, 0), (1, 0), (-1, 0), (2, 0), (-2, 0), (0, -1)]

/-- What `rotatePiece` leaves as the current piece when the attempt with
offset `o` is kept. -/
def kickedPiece (p : ActivePiece) (o : Int × Int) : ActivePiece :=
  { p with shape := rotateShape p.shape, x := p.x + o.1, y := p.y + o.2 }

/-- `n` executor steps (`updateAI` invocations with the cadence gate open),
with the random piece draws fixed to `O`. -/
def iterAI : Nat → Board → Board
  | 0, b => b
  | n + 1, b => iterAI n (stepAI b PieceType.O PieceType.O)

/-- One public operation on a board, as dispatched by the scheduler and
input handlers: spawn, downward/horizontal translate, rotate, hard drop,
and the lock step (which performs line clearing, as in `lockPiece`). -/
inductive BoardStep : Board → Board → Prop
  | spawn (b : Board) (rnd1 rnd2 : PieceType) : BoardStep b (spawnNewPiece b rnd1 rnd2)
  | down (b : Board) (rnd1 rnd2 : PieceType) : BoardStep b (movePieceDown b rnd1 rnd2).1
  | horiz (b : Board) (direction : Int) : BoardStep b (movePieceHorizontally b direction).1
  | rot (b : Board) : BoardStep b (rotatePiece b).1
  | hard (b : Board) (rnd1 rnd2 : PieceType) : BoardStep b (hardDrop b rnd1 rnd2)
  | lock (b : Board) : BoardStep b (lockPiece b)

/-- Boards reachable from a fresh board through the public operations. -/
inductive ReachableB : Board → Prop
  | init (index : Nat) : ReachableB (createBoard index)
  | step {b b1 : Board} : ReachableB b → BoardStep b b1 → ReachableB b1

/-- The active piece occupies the absolute grid coordinate `(y, x)`. -/
def pieceOccupies (p : ActivePiece) (y x : Int) : Prop :=
  ∃ r < p.shape.length, ∃ c < (rowAt p.shape r).length,
    shapeCell p.shape r c = true ∧ y = p.y + (r : Int) ∧ x = p.x + (c : Int)

/-- The grid holds a locked block at coordinate `(y, x)`. -/
def gridOccupied (g : Grid) (y x : Int) : Prop :=
  0 ≤ y ∧ y < (GRID_HEIGHT : Int) ∧ 0 ≤ x ∧ x < (GRID_WIDTH : Int) ∧
    (cellAt g y x).isSome = true

instance (p : ActivePiece) (y x : Int) : Decidable (pieceOccupies p y x) := by
  unfold pieceOccupies
  infer_instance

instance (g : Grid) (y x : Int) : Decidable (gridOccupied g y x) := by
  unfold gridOccupied
  infer_instance

/-- A grid with every cell occupied. -/
def fullGrid : Grid :=
  List.replicate GRID_HEIGHT (List.replicate GRID_WIDTH (some "#FFFFFF" : Cell))

/-! ## Concrete instances used by the examples -/

/-- An `O` piece at `(x, y)` with rotation counter `r` (the shape of `O`
is its own rotation, so this is the piece in any orientation). -/
def opiece (x y : Int) (r : Nat) : ActivePiece :=
  { type := PieceType.O, shape := pieceShape PieceType.O, x := x, y := y
    color := pieceColor PieceType.O, aiRotations := r }

/-- An autonomous board mid-plan: empty grid, freshly spawned `O` piece
moved to column `x`, pending planner target `{x: 0, rotation: 0}` (the
planner's own output for this piece on the empty grid), hard-drop
capability `hd`. -/
def c7move (hd : Bool) (x : Int) : Board :=
  { createBoard 0 with
      nextPiece := some PieceType.O
      aiHired := true
      aiEnabled := true
      aiHardDropUnlocked := hd
      aiMoving := true
      aiTargetPosition := some ⟨0, 0⟩
      currentPiece := some (opiece x 0 0) }

/-- The same soft-drop board after the target was consumed: piece aligned
at column 0 descending at row `y`, no pending target. -/
def c7desc (y : Int) : Board :=
  { createBoard 0 with
      nextPiece := some PieceType.O
      aiHired := true
      aiEnabled := true
      aiMoving := false
      aiTargetPosition := none
      currentPiece := some (opiece 0 y 0) }

/-- A board whose grid is entirely occupied while an `I` piece is current
(no placement of any rotation at any column is legal). -/
def c1board : Board :=
  { createBoard 0 with grid := fullGrid, currentPiece := some (createPiece PieceType.I) }

/-- A fully occupied row. -/
def fullRow : List Cell := List.replicate GRID_WIDTH (some "#FFFFFF" : Cell)

/-- A grid whose top row is full and whose bottom row carries one block:
clearing shifts nothing below the cleared row, refuting the claim that
every non-full row moves down by the cleared count. -/
def c3bad : Grid :=
  fullRow :: (List.replicate 18 emptyRow ++ [(some "#00F0F0" : Cell) :: List.replicate 9 (none : Cell)])

/-- A grid with two separated full rows (indices 17 and 19) around a
non-full row, exercising multiple simultaneous clears. -/
def c3wit : Grid :=
  List.replicate 17 emptyRow ++
    [fullRow, (some "#F0A000" : Cell) :: List.replicate 9 (none : Cell), fullRow]

/-- A one-board session able to afford one forced next piece. -/
def c9state : GameState :=
  { boards := [{ createBoard 0 with forceNextPieceUnlocked := true, nextPiece := some PieceType.I }]
    globalPoints := 5
    hasHalfCost := false }

/-- The R×C matrix with entry `f r c` (proof device for `rotateShape`). -/
def mkMat (R C : Nat) (f : Nat → Nat → Bool) : Shape :=
  (List.range R).map fun r => (List.range C).map fun c => f r c

/-- The piece-consistency invariant: an existing current piece never
collides with its own grid. -/
def PieceOK (b : Board) : Prop :=
  ∀ p, b.currentPiece = some p → collides p b.grid = false

/-! ## Basic lemmas about the collision test and grids -/

theorem collides_iff (p : ActivePiece) (g : Grid) :
    collides p g = true ↔
      ∃ r, r < p.shape.length ∧ ∃ c, c < (rowAt p.shape r).length ∧
        shapeCell p.shape r c = true ∧
          (p.x + (c : Int) < 0 ∨ (GRID_WIDTH : Int) ≤ p.x + (c : Int) ∨
           (GRID_HEIGHT : Int) ≤ p.y + (r : Int) ∨
           (0 ≤ p.y + (r : Int) ∧ (cellAt g (p.y + (r : Int)) (p.x + (c : Int))).isSome = true)) := by
  simp only [collides, List.any_eq_true, List.mem_range, Bool.and_eq_true, Bool.or_eq_true,
    decide_eq_true_eq]
  constructor <;>
    · rintro ⟨r, hr, c, hc, hcell, hbad⟩
      exact ⟨r, hr, c, hc, hcell, by tauto⟩

theorem collides_eq_false_iff (p : ActivePiece) (g : Grid) :
    collides p g = false ↔
      ∀ r, r < p.shape.length → ∀ c, c < (rowAt p.shape r).length →
        shapeCell p.shape r c = true →
          (0 ≤ p.x + (c : Int) ∧ p.x + (c : Int) < (GRID_WIDTH : Int) ∧
           p.y + (r : Int) < (GRID_HEIGHT : Int) ∧
           (0 ≤ p.y + (r : Int) → (cellAt g (p.y + (r : Int)) (p.x + (c : Int))).isSome = false)) := by
  rw [← Bool.not_eq_true, collides_iff]
  push_neg
  constructor
  · intro h r hr c hc hcell
    have := h r hr c hc hcell
    refine ⟨by omega, by omega, by omega, fun hy => ?_⟩
    have := this.2.2.2 hy
    simpa using this
  · intro h r hr c hc hcell
    have := h r hr c hc hcell
    refine ⟨by omega, by omega, by omega, fun hy => ?_⟩
    simp [this.2.2.2 hy]

theorem cellAt_createEmptyGrid (y x : Int) : cellAt createEmptyGrid y x = none := by
  unfold cellAt createEmptyGrid
  split
  · rcases h1 : (List.replicate GRID_HEIGHT (List.replicate GRID_WIDTH (none : Cell)))[y.toNat]?
      with _ | row
    · simp [h1]
    · have hrow : row = List.replicate GRID_WIDTH (none : Cell) := by
        have := List.getElem?_replicate (a := List.replicate GRID_WIDTH (none : Cell))
          (n := GRID_HEIGHT) (m := y.toNat)
        rw [h1] at this
        split at this
        · exact (Option.some_inj.mp this.symm).symm
        · exact absurd this (by simp)
      subst hrow
      rcases h2 : (List.replicate GRID_WIDTH (none : Cell))[x.toNat]? with _ | c
      · simp [h1, h2]
      · have hc : c = none := by
          have := List.getElem?_replicate (a := (none : Cell)) (n := GRID_WIDTH) (m := x.toNat)
          rw [h2] at this
          split at this
          · exact Option.some_inj.mp this
          · exact absurd this (by simp)
        simp [h1, h2, hc]
  · rfl

theorem cellAt_fullGrid {y x : Int} (hy0 : 0 ≤ y) (hy : y < (GRID_HEIGHT : Int))
    (hx0 : 0 ≤ x) (hx : x < (GRID_WIDTH : Int)) :
    cellAt fullGrid y x = some "#FFFFFF" := by
  unfold cellAt fullGrid
  rw [if_pos ⟨hy0, hx0⟩]
  have hyn : y.toNat < GRID_HEIGHT := by omega
  have hxn : x.toNat < GRID_WIDTH := by omega
  rw [List.getElem?_replicate, if_pos hyn]
  simp only [Option.getD_some]
  rw [List.getElem?_replicate, if_pos hxn]
  rfl

/-! ## C10: movement operations are no-ops without a current piece -/

/-- C10: for every board whose `currentPiece` is `null`, each movement
operation — `movePieceDown`, `movePieceHorizontally`, `rotatePiece`,
`hardDrop` — returns `false` (or returns without acting) and leaves the
board entirely unchanged; none dereferences the missing piece. -/
theorem moves_noop_without_piece (b : Board) (h : b.currentPiece = none)
    (rnd1 rnd2 : PieceType) (direction : Int) :
    movePieceDown b rnd1 rnd2 = (b, false) ∧
    movePieceHorizontally b direction = (b, false) ∧
    rotatePiece b = (b, false) ∧
    hardDrop b rnd1 rnd2 = b := by
  unfold movePieceDown movePieceHorizontally rotatePiece hardDrop
  rw [h]
  exact ⟨rfl, rfl, rfl, rfl⟩

theorem moves_noop_without_piece_witness :
    (createBoard 0).currentPiece = none ∧
      movePieceDown (createBoard 0) PieceType.I PieceType.J = (createBoard 0, false) ∧
      hardDrop (createBoard 0) PieceType.I PieceType.J = createBoard 0 := by
  have h := moves_noop_without_piece (createBoard 0) rfl PieceType.I PieceType.J 1
  exact ⟨rfl, h.1, h.2.2.2⟩

/-! ## C9: `forceNextPiece` touches only the queue and the points -/

/-- C9: `forceNextPiece` overwrites only the target board's queued
next-piece type, deducting the use cost from global points: every board
field other than `nextPiece` is unchanged on every board, other boards
are untouched, and when the guards pass (board exists, feature unlocked,
different type queued, affordable) the queue holds the new type and the
cost is deducted. -/
theorem forceNextPiece_frame (s : GameState) (boardIndex : Nat) (t : PieceType) :
    (forceNextPiece s boardIndex t).hasHalfCost = s.hasHalfCost ∧
    (forceNextPiece s boardIndex t).boards.length = s.boards.length ∧
    (∀ j, j ≠ boardIndex →
      (forceNextPiece s boardIndex t).boards[j]? = s.boards[j]?) ∧
    (∀ b0 b1, s.boards[boardIndex]? = some b0 →
      (forceNextPiece s boardIndex t).boards[boardIndex]? = some b1 →
      b1 = { b0 with nextPiece := b1.nextPiece }) ∧
    (∀ b0, s.boards[boardIndex]? = some b0 →
      b0.forceNextPieceUnlocked = true →
      b0.nextPiece ≠ some t →
      ¬ s.globalPoints < getBoardCost FORCE_NEXT_PIECE_USE boardIndex s.hasHalfCost →
      (forceNextPiece s boardIndex t).globalPoints =
          s.globalPoints - getBoardCost FORCE_NEXT_PIECE_USE boardIndex s.hasHalfCost ∧
        (forceNextPiece s boardIndex t).boards[boardIndex]? =
          some { b0 with nextPiece := some t }) := by
  rcases hb : s.boards[boardIndex]? with _ | b
  · have hfn : forceNextPiece s boardIndex t = s := by
      unfold forceNextPiece; rw [hb]
    rw [hfn]
    refine ⟨rfl, rfl, fun j _ => rfl, ?_, ?_⟩
    · intro b0 b1 h0 _
      exact Option.noConfusion h0
    · intro b0 h0
      exact Option.noConfusion h0
  · by_cases hu : b.forceNextPieceUnlocked = true
    · by_cases hsame : b.nextPiece = some t
      · have hfn : forceNextPiece s boardIndex t = s := by
          unfold forceNextPiece; rw [hb]; simp [hu, hsame]
        rw [hfn]
        refine ⟨rfl, rfl, fun j _ => rfl, ?_, ?_⟩
        · intro b0 b1 h0 h1
          obtain rfl : b = b0 := Option.some.inj h0
          obtain rfl : b = b1 := Option.some.inj (hb.symm.trans h1)
          rfl
        · intro b0 h0 _ hdiff _
          obtain rfl : b = b0 := Option.some.inj h0
          exact absurd hsame hdiff
      · by_cases hafford : s.globalPoints < getBoardCost FORCE_NEXT_PIECE_USE boardIndex s.hasHalfCost
        · have hfn : forceNextPiece s boardIndex t = s := by
            unfold forceNextPiece; rw [hb]; simp [hu, hsame, hafford]
          rw [hfn]
          refine ⟨rfl, rfl, fun j _ => rfl, ?_, ?_⟩
          · intro b0 b1 h0 h1
            obtain rfl : b = b0 := Option.some.inj h0
            obtain rfl : b = b1 := Option.some.inj (hb.symm.trans h1)
            rfl
          · intro b0 h0 _ _ hpay
            exact absurd hafford hpay
        · have hlt : boardIndex < s.boards.length := by
            by_contra hge
            rw [List.getElem?_eq_none (by omega)] at hb
            cases hb
          have hfn : forceNextPiece s boardIndex t =
              { s with
                  globalPoints :=
                    s.globalPoints - getBoardCost FORCE_NEXT_PIECE_USE boardIndex s.hasHalfCost
                  boards := s.boards.set boardIndex { b with nextPiece := some t } } := by
            unfold forceNextPiece; rw [hb]; simp [hu, hsame, hafford]
          have hset : (s.boards.set boardIndex { b with nextPiece := some t })[boardIndex]? =
              some { b with nextPiece := some t } := by
            rw [List.getElem?_set_self (by omega)]
          rw [hfn]
          refine ⟨rfl, by simp, fun j hj => ?_, ?_, ?_⟩
          · exact List.getElem?_set_ne (Ne.symm hj)
          · intro b0 b1 h0 h1
            obtain rfl : b = b0 := Option.some.inj h0
            obtain rfl : ({ b with nextPiece := some t } : Board) = b1 :=
              Option.some.inj (hset.symm.trans h1)
            rfl
          · intro b0 h0 _ _ _
            obtain rfl : b = b0 := Option.some.inj h0
            exact ⟨rfl, hset⟩
    · have hfn : forceNextPiece s boardIndex t = s := by
        unfold forceNextPiece; rw [hb]
        simp only [Bool.not_eq_true] at hu
        simp [hu]
      rw [hfn]
      refine ⟨rfl, rfl, fun j _ => rfl, ?_, ?_⟩
      · intro b0 b1 h0 h1
        obtain rfl : b = b0 := Option.some.inj h0
        obtain rfl : b = b1 := Option.some.inj (hb.symm.trans h1)
        rfl
      · intro b0 h0 hunlocked _ _
        obtain rfl : b = b0 := Option.some.inj h0
        exact absurd hunlocked hu

theorem forceNextPiece_frame_witness :
    (forceNextPiece c9state 0 PieceType.L).globalPoints = 4 ∧
      (forceNextPiece c9state 0 PieceType.L).boards[0]? =
        some { createBoard 0 with forceNextPieceUnlocked := true, nextPiece := some PieceType.L } := by
  have h := (forceNextPiece_frame c9state 0 PieceType.L).2.2.2.2
    { createBoard 0 with forceNextPieceUnlocked := true, nextPiece := some PieceType.I }
    rfl rfl (by decide) (by decide)
  exact ⟨h.1, h.2⟩

/-! ## C6: spawn collision transitions the board to game over -/

/-- C6: whenever the freshly spawned piece immediately collides, the board
transitions to game over: `isGameOver` becomes true, the active piece is
cleared, the autonomous flag is cleared, the pending autonomous target is
cleared, and the per-tick scheduler skips the board until reset. The
hypothesis `hinv` is the program invariant that a non-null pending target
only exists while the AI is enabled: the only assignment of a non-null
target (`updateAI`) is guarded by `aiEnabled`, and both sites that disable
`aiEnabled` (`handleBoardGameOver`, `activateTakeControl`) null the target. -/
theorem spawn_collision_gameover (b : Board) (rnd1 rnd2 : PieceType)
    (hcol : collides (createPiece (b.nextPiece.getD rnd1)) b.grid = true)
    (hinv : b.aiTargetPosition = none ∨ b.aiEnabled = true) :
    (spawnNewPiece b rnd1 rnd2).isGameOver = true ∧
    (spawnNewPiece b rnd1 rnd2).currentPiece = none ∧
    (spawnNewPiece b rnd1 rnd2).aiEnabled = false ∧
    (spawnNewPiece b rnd1 rnd2).aiTargetPosition = none ∧
    (∀ activeIdx gravityDue r1 r2,
      boardTick activeIdx gravityDue (spawnNewPiece b rnd1 rnd2) r1 r2 =
        spawnNewPiece b rnd1 rnd2) := by
  have hspawn : spawnNewPiece b rnd1 rnd2 =
      handleBoardGameOver
        { b with nextPiece := some rnd2
                 currentPiece := some (createPiece (b.nextPiece.getD rnd1)) } := by
    unfold spawnNewPiece
    rw [if_pos]
    show checkCollision _ = true
    unfold checkCollision
    exact hcol
  rw [hspawn]
  rcases hen : b.aiEnabled with _ | _
  · have htgt : b.aiTargetPosition = none := by
      rcases hinv with h | h
      · exact h
      · rw [hen] at h; cases h
    refine ⟨?_, ?_, ?_, ?_, fun activeIdx gravityDue r1 r2 => ?_⟩ <;>
      simp [handleBoardGameOver, boardTick, hen, htgt]
  · refine ⟨?_, ?_, ?_, ?_, fun activeIdx gravityDue r1 r2 => ?_⟩ <;>
      simp [handleBoardGameOver, boardTick, hen]

theorem spawn_collision_gameover_witness :
    collides (createPiece PieceType.I) fullGrid = true ∧
      (spawnNewPiece { createBoard 0 with grid := fullGrid, aiEnabled := true }
          PieceType.I PieceType.J).isGameOver = true ∧
      (spawnNewPiece { createBoard 0 with grid := fullGrid, aiEnabled := true }
          PieceType.I PieceType.J).currentPiece = none ∧
      (spawnNewPiece { createBoard 0 with grid := fullGrid, aiEnabled := true }
          PieceType.I PieceType.J).aiEnabled = false := by
  have h := spawn_collision_gameover
    { createBoard 0 with grid := fullGrid, aiEnabled := true } PieceType.I PieceType.J
    (by decide) (Or.inr rfl)
  exact ⟨by decide, h.1, h.2.1, h.2.2.1⟩

/-! ## C8: four clockwise rotations restore the matrix -/

theorem length_mkMat (R C : Nat) (f : Nat → Nat → Bool) : (mkMat R C f).length = R := by
  simp [mkMat]

theorem rowAt_mkMat {R C : Nat} {f : Nat → Nat → Bool} {r : Nat} (hr : r < R) :
    rowAt (mkMat R C f) r = (List.range C).map (f r) := by
  simp [mkMat, rowAt, List.getElem?_map, List.getElem?_range hr]

theorem rowAt_len_mkMat {R C : Nat} {f : Nat → Nat → Bool} {r : Nat} (hr : r < R) :
    (rowAt (mkMat R C f) r).length = C := by
  rw [rowAt_mkMat hr]; simp

theorem shapeCell_mkMat {R C : Nat} {f : Nat → Nat → Bool} {r c : Nat}
    (hr : r < R) (hc : c < C) : shapeCell (mkMat R C f) r c = f r c := by
  rw [shapeCell, rowAt_mkMat hr]
  simp [List.getElem?_map, List.getElem?_range hc]

theorem rotateShape_mkMat {R C : Nat} (f : Nat → Nat → Bool) (hR : 0 < R) :
    rotateShape (mkMat R C f) = mkMat C R (fun col i => f (R - 1 - i) col) := by
  unfold rotateShape
  rw [length_mkMat, rowAt_len_mkMat hR]
  unfold mkMat
  apply List.map_congr_left
  intro col hcol
  apply List.map_congr_left
  intro i hi
  rw [List.mem_range] at hcol hi
  exact shapeCell_mkMat (by omega) hcol

theorem eq_mkMat_self (m : Shape) {C : Nat} (hrect : ∀ row ∈ m, row.length = C) :
    m = mkMat m.length C (shapeCell m) := by
  apply List.ext_getElem?
  intro r
  by_cases hr : r < m.length
  · rcases hrow : m[r]? with _ | row
    · exact absurd (List.getElem?_eq_getElem hr) (by rw [hrow]; simp)
    · have hmem : row ∈ m := List.getElem?_mem hrow
      have hlen : row.length = C := hrect row hmem
      unfold mkMat
      rw [List.getElem?_map, List.getElem?_range hr]
      simp only [Option.map_some', Option.some_inj]
      apply List.ext_getElem?
      intro c
      by_cases hc : c < C
      · rw [List.getElem?_map, List.getElem?_range hc]
        have hcr : c < row.length := by omega
        rw [List.getElem?_eq_getElem hcr]
        simp only [Option.map_some', Option.some_inj]
        rw [shapeCell, rowAt, hrow]
        simp [List.getElem?_eq_getElem hcr]
      · rw [List.getElem?_eq_none (by omega), List.getElem?_map,
          List.getElem?_eq_none (by simp; omega)]
        rfl
  · rw [List.getElem?_eq_none (by omega)]
    unfold mkMat
    rw [List.getElem?_map, List.getElem?_eq_none (by simp; omega)]
    rfl

theorem mkMat_congr (R C : Nat) (f g : Nat → Nat → Bool)
    (h : ∀ r < R, ∀ c < C, f r c = g r c) : mkMat R C f = mkMat R C g := by
  unfold mkMat
  apply List.map_congr_left
  intro r hr
  apply List.map_congr_left
  intro c hc
  rw [List.mem_range] at hr hc
  exact h r hr c hc

/-- The four-fold rotation identity for the total model `rotateShape`,
used on inputs where the source call returns normally. -/
theorem rotateShape_four_total (m : Shape)
    (hrect : ∀ row ∈ m, row.length = (rowAt m 0).length)
    (hdeg : m = [] ∨ 0 < (rowAt m 0).length) :
    rotateShape (rotateShape (rotateShape (rotateShape m))) = m := by
  rcases hdeg with hnil | hC
  · subst hnil; rfl
  rcases hR : m.length with _ | R0
  · have : m = [] := List.length_eq_zero.mp hR
    subst this; rfl
  have hRpos : 0 < m.length := by omega
  have hCpos : 0 < (rowAt m 0).length := hC
  set C := (rowAt m 0).length with hCdef
  set R := m.length with hRdef
  have hm : m = mkMat R C (shapeCell m) := eq_mkMat_self m hrect
  conv_lhs => rw [hm]
  rw [rotateShape_mkMat _ hRpos, rotateShape_mkMat _ hCpos,
    rotateShape_mkMat _ hRpos, rotateShape_mkMat _ hCpos]
  have hcong := mkMat_congr R C
    (fun col i => shapeCell m (R - 1 - (R - 1 - col)) (C - 1 - (C - 1 - i)))
    (shapeCell m) (by
      intro r hr c hc
      show shapeCell m (R - 1 - (R - 1 - r)) (C - 1 - (C - 1 - c)) = shapeCell m r c
      have h1 : R - 1 - (R - 1 - r) = r := by omega
      have h2 : C - 1 - (C - 1 - c) = c := by omega
      rw [h1, h2])
  rw [hcong]
  exact hm.symm

theorem rotateShapeT_cons (s : Shape) (h : s ≠ []) :
    rotateShapeT s = some (rotateShape s) := by
  cases s with
  | nil => exact absurd rfl h
  | cons a t => rfl

theorem length_rotateShape (s : Shape) :
    (rotateShape s).length = (rowAt s 0).length := by
  unfold rotateShape
  simp

theorem rowAt_rotateShape_zero (s : Shape) (h : 0 < (rowAt s 0).length) :
    (rowAt (rotateShape s) 0).length = s.length := by
  unfold rotateShape rowAt
  rw [List.getElem?_map,
    List.getElem?_range (show 0 < ((s[0]?).getD []).length from h)]
  simp

/-- C8 (amended): for every rectangular boolean matrix with at least one
row and at least one column — in particular each of the seven canonical
piece shapes and all their rotations — four successive applications of
`rotateShape` all return normally and reproduce the matrix exactly. (On
an R×0 matrix the first rotation returns `[]` and the second throws a
TypeError; see the counterexample.) -/
theorem rotateShape_four_eq_self (m : Shape) (hne : m ≠ ([] : Shape))
    (hrect : ∀ row ∈ m, row.length = (rowAt m 0).length)
    (hC : 0 < (rowAt m 0).length) :
    rotateShape4 m = some m := by
  have hRpos : 0 < m.length := List.length_pos.mpr hne
  have len1 : (rotateShape m).length = (rowAt m 0).length := length_rotateShape m
  have row1 : (rowAt (rotateShape m) 0).length = m.length := rowAt_rotateShape_zero m hC
  have len2 : (rotateShape (rotateShape m)).length = m.length :=
    (length_rotateShape _).trans row1
  have row2 : (rowAt (rotateShape (rotateShape m)) 0).length = (rotateShape m).length :=
    rowAt_rotateShape_zero _ (by omega)
  have len3 : (rotateShape (rotateShape (rotateShape m))).length = (rotateShape m).length :=
    (length_rotateShape _).trans row2
  have n1 : rotateShape m ≠ [] := by
    intro hnil
    rw [hnil] at len1
    simp at len1
    omega
  have n2 : rotateShape (rotateShape m) ≠ [] := by
    intro hnil
    rw [hnil] at len2
    simp at len2
    omega
  have n3 : rotateShape (rotateShape (rotateShape m)) ≠ [] := by
    intro hnil
    rw [hnil] at len3
    simp at len3
    omega
  have h4 : rotateShape (rotateShape (rotateShape (rotateShape m))) = m :=
    rotateShape_four_total m hrect (Or.inr hC)
  unfold rotateShape4
  rw [rotateShapeT_cons m hne, Option.some_bind, rotateShapeT_cons _ n1, Option.some_bind,
    rotateShapeT_cons _ n2, Option.some_bind, rotateShapeT_cons _ n3, h4]

/-- C8 counterexample: the 2×0 matrix is rectangular, yet the first of
the four rotations returns the empty array and the second one throws a
TypeError reading `shape[0].length` (modeled by `none`), so four
successive rotations do not return the original matrix — the claim's
quantification over every rectangular boolean matrix fails. -/
theorem rotateShape_four_cex :
    rotateShape4 ([[], []] : Shape) = none ∧
      rotateShapeT ([[], []] : Shape) = some [] := by decide

theorem rotateShape_four_eq_self_witness :
    (pieceShape PieceType.T ≠ ([] : Shape)) ∧
      (∀ row ∈ pieceShape PieceType.T, row.length = (rowAt (pieceShape PieceType.T) 0).length) ∧
      0 < (rowAt (pieceShape PieceType.T) 0).length ∧
      rotateShape4 (pieceShape PieceType.T) = some (pieceShape PieceType.T) :=
  ⟨by decide, by decide, by decide,
    rotateShape_four_eq_self (pieceShape PieceType.T) (by decide) (by decide) (by decide)⟩

/-! ## C3: line clearing -/

theorem getElem?_eraseIdx_ge {α : Type} (l : List α) (i j : Nat) (h : i ≤ j) :
    (l.eraseIdx i)[j]? = l[j + 1]? := by
  induction l generalizing i j with
  | nil => simp [List.eraseIdx]
  | cons a l ih =>
    cases i with
    | zero => simp [List.eraseIdx]
    | succ i =>
      cases j with
      | zero => omega
      | succ j =>
        simp only [List.eraseIdx]
        have := ih i j (by omega)
        simpa using this

theorem isFullAt_cons_succ (row : List Cell) (g : Grid) (j : Nat) :
    isFullAt (row :: g) (j + 1) = isFullAt g j := by
  simp [isFullAt]

theorem isFullAt_nil (j : Nat) : isFullAt ([] : Grid) j = false := by
  have : (([] : Grid)[j]?).getD [] = ([] : List Cell) := by simp
  rw [isFullAt, this]
  decide

theorem filter_eraseIdx_full {g : Grid} {r : Nat} (h : isFullAt g r = true) :
    (g.eraseIdx r).filter (fun row => !isFullRow row) =
      g.filter (fun row => !isFullRow row) := by
  induction g generalizing r with
  | nil => exact absurd (isFullAt_lt_length h) (by simp)
  | cons row g ih =>
    cases r with
    | zero =>
      have hrow : isFullRow row = true := by simpa [isFullAt] using h
      simp [List.eraseIdx, List.filter_cons, hrow]
    | succ r =>
      have h' : isFullAt g r = true := by simpa [isFullAt] using h
      simp only [List.eraseIdx, List.filter_cons]
      rw [ih h']

theorem countFull_eq_zero_of_nonfull {g : Grid} (h : ∀ j, isFullAt g j = false) :
    countFull g = 0 ∧ g.filter (fun row => !isFullRow row) = g := by
  have hall : ∀ row ∈ g, isFullRow row = false := by
    intro row hmem
    obtain ⟨j, hj, hget⟩ := List.getElem_of_mem hmem
    have := h j
    rw [isFullAt, List.getElem?_eq_getElem hj, hget] at this
    simpa using this
  constructor
  · rw [countFull]
    have : g.filter isFullRow = [] := by
      rw [List.filter_eq_nil_iff]
      intro row hmem
      simp [hall row hmem]
    rw [this]; rfl
  · rw [List.filter_eq_self]
    intro row hmem
    simp [hall row hmem]

/-- Invariant of the bottom-to-top scan: once every row at index ≥ `r1` is
known non-full, the scan clears exactly the remaining full rows, yielding
the non-full rows in order under fresh empty rows. -/
theorem clearLinesAux_spec :
    ∀ (fuel : Nat) (g : Grid) (r1 acc : Nat), countFull g + r1 ≤ fuel →
      (∀ j, r1 ≤ j → isFullAt g j = false) →
      clearLinesAux fuel g r1 acc =
        (List.replicate (countFull g) emptyRow ++ g.filter (fun row => !isFullRow row),
          acc + countFull g) := by
  intro fuel
  induction fuel with
  | zero =>
    intro g r1 acc hle hnf
    have hr1 : r1 = 0 := by omega
    subst hr1
    obtain ⟨hz, hfil⟩ := countFull_eq_zero_of_nonfull (fun j => hnf j (by omega))
    rw [clearLinesAux, hz, hfil]
    simp
  | succ n ih =>
    intro g r1 acc hle hnf
    cases r1 with
    | zero =>
      obtain ⟨hz, hfil⟩ := countFull_eq_zero_of_nonfull (fun j => hnf j (by omega))
      rw [clearLinesAux, hz, hfil]
      simp
    | succ r =>
      rw [clearLinesAux]
      by_cases hfull : isFullAt g r = true
      · rw [if_pos hfull]
        have hcount : countFull (g.eraseIdx r) + 1 = countFull g := countFull_eraseIdx hfull
        have hcount2 : countFull (emptyRow :: g.eraseIdx r) + 1 = countFull g := by
          rw [countFull_cons_emptyRow]; exact hcount
        have hnf2 : ∀ j, r + 1 ≤ j → isFullAt (emptyRow :: g.eraseIdx r) j = false := by
          intro j hj
          cases j with
          | zero => omega
          | succ j =>
            rw [isFullAt_cons_succ]
            rw [isFullAt, getElem?_eraseIdx_ge g r j (by omega)]
            exact hnf (j + 1) (by omega)
        have := ih (emptyRow :: g.eraseIdx r) (r + 1) (acc + 1) (by omega) hnf2
        rw [this]
        have hk : countFull g = countFull (emptyRow :: g.eraseIdx r) + 1 := hcount2.symm
        rw [hk]
        have hfil : (emptyRow :: g.eraseIdx r).filter (fun row => !isFullRow row) =
            emptyRow :: g.filter (fun row => !isFullRow row) := by
          rw [List.filter_cons, filter_eraseIdx_full hfull]
          simp [isFullRow_emptyRow]
        rw [hfil]
        refine Prod.ext ?_ (by omega)
        show List.replicate (countFull (emptyRow :: g.eraseIdx r)) emptyRow ++
            (emptyRow :: g.filter (fun row => !isFullRow row)) =
          List.replicate (countFull (emptyRow :: g.eraseIdx r) + 1) emptyRow ++
            g.filter (fun row => !isFullRow row)
        rw [List.replicate_succ', List.append_assoc, List.singleton_append]
      · rw [if_neg hfull]
        apply ih g r acc (by omega)
        intro j hj
        rcases Nat.eq_or_lt_of_le hj with hj1 | hj2
        · rw [← hj1]
          exact Bool.not_eq_true _ ▸ hfull
        · exact hnf j (by omega)

theorem filter_length_countFull (g : Grid) :
    (g.filter (fun row => !isFullRow row)).length + countFull g = g.length := by
  induction g with
  | nil => rfl
  | cons row g ih =>
    simp only [countFull, List.filter_cons] at ih ⊢
    rcases hrow : isFullRow row with _ | _
    · simp only [hrow, Bool.not_false, if_pos, cond_true, cond_false]
      simp [hrow]
      omega
    · simp [hrow]
      omega

/-- C3 (amended): on a W×H grid, `clearLines` removes exactly the full
rows and returns their count k; the resulting grid is k fresh empty rows
followed by the non-full rows in their original order (so each non-full
row moves down by the number of full rows below it); the dimensions stay
W×H, and with zero full rows the grid is returned unchanged with count 0. -/
theorem clearLines_spec (g : Grid) (hlen : g.length = GRID_HEIGHT)
    (hW : ∀ row ∈ g, row.length = GRID_WIDTH) :
    clearLinesG g =
      (List.replicate (countFull g) emptyRow ++ g.filter (fun row => !isFullRow row),
        countFull g) ∧
    (clearLinesG g).1.length = GRID_HEIGHT ∧
    (∀ row ∈ (clearLinesG g).1, row.length = GRID_WIDTH) ∧
    (countFull g = 0 → clearLinesG g = (g, 0)) := by
  have hmain : clearLinesG g =
      (List.replicate (countFull g) emptyRow ++ g.filter (fun row => !isFullRow row),
        countFull g) := by
    rw [clearLinesG]
    have := clearLinesAux_spec (countFull g + GRID_HEIGHT) g GRID_HEIGHT 0 (by omega)
      (fun j hj => by
        rw [isFullAt, List.getElem?_eq_none (by omega)]
        decide)
    simpa using this
  refine ⟨hmain, ?_, ?_, ?_⟩
  · rw [hmain]
    have := filter_length_countFull g
    simp only [List.length_append, List.length_replicate]
    omega
  · rw [hmain]
    intro row hmem
    rcases List.mem_append.mp hmem with hrep | hfil
    · rw [List.eq_of_mem_replicate hrep]
      simp [emptyRow]
    · exact hW row (List.mem_of_mem_filter hfil)
  · intro hz
    have hnf : ∀ j, isFullAt g j = false := by
      intro j
      by_cases hj : j < g.length
      · rw [isFullAt]
        rcases hrow : g[j]? with _ | row
        · simp only [Option.getD_none]; decide
        · have hmem : row ∈ g := List.getElem?_mem hrow
          have : isFullRow row = false := by
            by_contra hfull
            have hfull2 : isFullRow row = true := by
              cases h2 : isFullRow row
              · exact absurd h2 hfull
              · rfl
            have : 0 < countFull g := by
              rw [countFull]
              have : row ∈ g.filter isFullRow := List.mem_filter.mpr ⟨hmem, hfull2⟩
              exact List.length_pos.mpr (List.ne_nil_of_mem this)
            omega
          simpa using this
      · rw [isFullAt, List.getElem?_eq_none (by omega)]
        decide
    obtain ⟨-, hfil⟩ := countFull_eq_zero_of_nonfull hnf
    rw [hmain, hz, hfil]
    rfl

theorem clearLines_spec_witness :
    c3wit.length = GRID_HEIGHT ∧
      clearLinesG c3wit =
        (List.replicate (countFull c3wit) emptyRow ++
          c3wit.filter (fun row => !isFullRow row), countFull c3wit) ∧
      countFull c3wit = 2 :=
  ⟨by decide, (clearLines_spec c3wit (by decide) (by decide)).1, by decide⟩

/-- C3 counterexample: on `c3bad` (full top row, one block in the bottom
row) one line is cleared, but the non-full bottom row cannot move down by
the cleared count — it stays at the bottom — so the claim that all
previously non-full rows end up shifted down by k fails. -/
theorem clearLines_shift_cex :
    (clearLinesG c3bad).2 = 1 ∧
      ¬ (∀ i, i < GRID_HEIGHT → isFullRow ((c3bad[i]?).getD []) = false →
          ((clearLinesG c3bad).1)[i + (clearLinesG c3bad).2]? = c3bad[i]?) := by
  have hnf : ∀ j, GRID_HEIGHT ≤ j → isFullAt c3bad j = false := by
    intro j hj
    rw [isFullAt, List.getElem?_eq_none]
    · decide
    · have hlen : c3bad.length = GRID_HEIGHT := by decide
      omega
  have hmain : clearLinesG c3bad =
      (List.replicate (countFull c3bad) emptyRow ++
        c3bad.filter (fun row => !isFullRow row), countFull c3bad) := by
    rw [clearLinesG]
    simpa using clearLinesAux_spec (countFull c3bad + GRID_HEIGHT) c3bad GRID_HEIGHT 0
      (by omega) hnf
  rw [hmain]
  constructor
  · decide
  · intro h
    have := h 19 (by decide) (by decide)
    revert this
    decide

/-! ## C5: rotation with wall and floor kicks -/

/-- C5: `rotatePiece` returns false and changes nothing for the square
piece; for any other piece it replaces the shape with its clockwise
rotation positioned at the first offset from
`(0,0), (+1,0), (-1,0), (+2,0), (-2,0), (0,-1)` — in place, the wall
kicks in order, then the floor kick — that does not collide, returning
true; if every attempt collides, the board (shape, x and y included) is
exactly as before and false is returned. -/
theorem rotatePiece_spec (b : Board) (p : ActivePiece) (hp : b.currentPiece = some p) :
    (p.type = PieceType.O → rotatePiece b = (b, false)) ∧
    (p.type ≠ PieceType.O →
      rotatePiece b =
        match kickOffsets.find? (fun o => !collides (kickedPiece p o) b.grid) with
        | some o => ({ b with currentPiece := some (kickedPiece p o) }, true)
        | none => (b, false)) := by
  constructor
  · intro hO
    rw [rotatePiece.eq_def, hp]
    simp [hO]
  · intro hO
    rw [rotatePiece.eq_def, hp]
    simp only [if_neg hO]
    have e0 : ({ p with shape := rotateShape p.shape } : ActivePiece) = kickedPiece p (0, 0) := by
      simp [kickedPiece]
    have e1 : ({ p with shape := rotateShape p.shape, x := p.x + 1 } : ActivePiece) =
        kickedPiece p (1, 0) := by simp [kickedPiece]
    have e2 : ({ p with shape := rotateShape p.shape, x := p.x - 1 } : ActivePiece) =
        kickedPiece p (-1, 0) := by simp [kickedPiece, Int.sub_eq_add_neg]
    have e3 : ({ p with shape := rotateShape p.shape, x := p.x + 2 } : ActivePiece) =
        kickedPiece p (2, 0) := by simp [kickedPiece]
    have e4 : ({ p with shape := rotateShape p.shape, x := p.x - 2 } : ActivePiece) =
        kickedPiece p (-2, 0) := by simp [kickedPiece, Int.sub_eq_add_neg]
    have e5 : ({ p with shape := rotateShape p.shape, y := p.y - 1 } : ActivePiece) =
        kickedPiece p (0, -1) := by simp [kickedPiece, Int.sub_eq_add_neg]
    rw [e0, e1, e2, e3, e4, e5]
    simp only [kickOffsets, List.find?]
    rcases h0 : collides (kickedPiece p (0, 0)) b.grid with _ | _ <;>
      rcases h1 : collides (kickedPiece p (1, 0)) b.grid with _ | _ <;>
        rcases h2 : collides (kickedPiece p (-1, 0)) b.grid with _ | _ <;>
          rcases h3 : collides (kickedPiece p (2, 0)) b.grid with _ | _ <;>
            rcases h4 : collides (kickedPiece p (-2, 0)) b.grid with _ | _ <;>
              rcases h5 : collides (kickedPiece p (0, -1)) b.grid with _ | _ <;>
                simp [h0, h1, h2, h3, h4, h5]

theorem rotatePiece_spec_witness :
    rotatePiece { createBoard 0 with currentPiece := some (createPiece PieceType.T) } =
      ({ createBoard 0 with
          currentPiece := some (kickedPiece (createPiece PieceType.T) (0, 0)) }, true) := by
  have h := (rotatePiece_spec
    { createBoard 0 with currentPiece := some (createPiece PieceType.T) }
    (createPiece PieceType.T) rfl).2 (by decide)
  rw [h]
  have hfind : kickOffsets.find?
      (fun o => !collides (kickedPiece (createPiece PieceType.T) o)
        ({ createBoard 0 with currentPiece := some (createPiece PieceType.T) } : Board).grid) =
      some (0, 0) := by decide
  rw [hfind]

/-! ## C1: the planner's behaviour when no placement is legal -/

theorem foldl_planStep_all_none {g : Grid} {piece : ActivePiece} {rot : Nat}
    {xs : List Int} (h : ∀ x ∈ xs, simulateMove g piece x rot = none)
    (acc : Option (Move × Int)) :
    xs.foldl (planStep g piece rot) acc = acc := by
  induction xs generalizing acc with
  | nil => rfl
  | cons x xs ih =>
    rw [List.foldl_cons]
    have hstep : planStep g piece rot acc x = acc := by
      unfold planStep
      rw [h x (by simp)]
    rw [hstep]
    exact ih (fun y hy => h y (by simp [hy])) acc

theorem foldl_rotations_all_none {g : Grid} {piece : ActivePiece} {rots : List Nat}
    (h : ∀ rot ∈ rots, ∀ x : Int, simulateMove g piece x rot = none)
    (acc : Option (Move × Int)) :
    rots.foldl
      (fun best rotation =>
        (xCandidates (rotN rotation piece.shape)).foldl (planStep g piece rotation) best)
      acc = acc := by
  induction rots generalizing acc with
  | nil => rfl
  | cons rot rots ih =>
    rw [List.foldl_cons, foldl_planStep_all_none (fun x _ => h rot (by simp) x)]
    exact ih (fun r hr x => h r (by simp [hr]) x) acc

theorem planFold_eq_none {g : Grid} {piece : ActivePiece} {maxR : Nat}
    (h : ∀ rot, rot < maxR → ∀ x : Int, simulateMove g piece x rot = none) :
    planFold g piece maxR = none := by
  unfold planFold
  exact foldl_rotations_all_none (fun rot hrot x => h rot (List.mem_range.mp hrot) x) none

theorem simulateMove_eq_none_of_collides {g : Grid} {piece : ActivePiece}
    {x : Int} {rot : Nat} (h : collides (testPieceOf piece x rot) g = true) :
    simulateMove g piece x rot = none := by
  unfold simulateMove
  rw [if_pos h]

theorem collides_fullGrid_of_occupied (p : ActivePiece) (r c : Nat)
    (hr : r < p.shape.length) (hc : c < (rowAt p.shape r).length)
    (hcell : shapeCell p.shape r c = true)
    (hy0 : 0 ≤ p.y) (hy : p.y + (r : Int) < (GRID_HEIGHT : Int)) :
    collides p fullGrid = true := by
  apply (collides_iff p fullGrid).mpr
  refine ⟨r, hr, c, hc, hcell, ?_⟩
  by_cases hx1 : p.x + (c : Int) < 0
  · exact Or.inl hx1
  · by_cases hx2 : (GRID_WIDTH : Int) ≤ p.x + (c : Int)
    · exact Or.inr (Or.inl hx2)
    · refine Or.inr (Or.inr (Or.inr ⟨by omega, ?_⟩))
      rw [cellAt_fullGrid (by omega) (by omega) (by omega) (by omega)]
      rfl

theorem collides_testPiece_fullGrid (piece : ActivePiece) (x : Int) (rot r c : Nat)
    (hr : r < (rotN rot piece.shape).length)
    (hc : c < (rowAt (rotN rot piece.shape) r).length)
    (hcell : shapeCell (rotN rot piece.shape) r c = true)
    (hy : (r : Int) < (GRID_HEIGHT : Int)) :
    collides (testPieceOf piece x rot) fullGrid = true :=
  collides_fullGrid_of_occupied (testPieceOf piece x rot) r c hr hc hcell
    (le_refl (0 : Int))
    (by show (0 : Int) + (r : Int) < (GRID_HEIGHT : Int); omega)

/-- On the fully occupied grid, no rotation of the `I` piece is placeable
at `(x, 0)` for any column `x`. -/
theorem fullGrid_no_legal_I :
    ∀ rot, rot ≤ 3 → ∀ x : Int,
      checkCollisionForTest (testPieceOf (createPiece PieceType.I) x rot) fullGrid = true := by
  intro rot hrot x
  interval_cases rot
  · exact collides_testPiece_fullGrid _ x 0 1 0 (by decide) (by decide) (by decide) (by decide)
  · exact collides_testPiece_fullGrid _ x 1 0 2 (by decide) (by decide) (by decide) (by decide)
  · exact collides_testPiece_fullGrid _ x 2 2 0 (by decide) (by decide) (by decide) (by decide)
  · exact collides_testPiece_fullGrid _ x 3 0 1 (by decide) (by decide) (by decide) (by decide)

/-- C1 (amended): for every board whose current piece admits no legal
placement (no rotation 0..3 and column lets the rotated piece sit at
`(x, 0)` without collision), `calculateBestMove` does not return null: it
returns the fallback `{x: currentPiece.x, rotation: 0}`. It returns null
only when the board has no current piece. -/
theorem calculateBestMove_no_legal (b : Board) (p : ActivePiece)
    (hp : b.currentPiece = some p)
    (hno : ∀ rot, rot ≤ 3 → ∀ x : Int,
      checkCollisionForTest (testPieceOf p x rot) b.grid = true) :
    calculateBestMove b = some ⟨p.x, 0⟩ ∧
      (∀ b1 : Board, b1.currentPiece = none → calculateBestMove b1 = none) := by
  have hsim : ∀ rot, rot < (if p.type = PieceType.O then 1 else 4) → ∀ x : Int,
      simulateMove b.grid p x rot = none := by
    intro rot hrot x
    have hr3 : rot ≤ 3 := by
      by_cases hO : p.type = PieceType.O
      · rw [if_pos hO] at hrot; omega
      · rw [if_neg hO] at hrot; omega
    exact simulateMove_eq_none_of_collides (hno rot hr3 x)
  have hplan : planPiece b.grid p = none := by
    simp only [planPiece, planFold_eq_none hsim]
  constructor
  · unfold calculateBestMove
    rw [hp]
    simp only [hplan]
  · intro b1 h1
    unfold calculateBestMove
    rw [h1]

theorem calculateBestMove_no_legal_witness :
    calculateBestMove c1board = some ⟨3, 0⟩ :=
  (calculateBestMove_no_legal c1board (createPiece PieceType.I) rfl fullGrid_no_legal_I).1

/-- C1 counterexample: on `c1board` (fully occupied grid, `I` piece) no
rotation/column pair is legal, yet `calculateBestMove` does not return
null: the trailing fallback yields `{x: 3, rotation: 0}`. -/
theorem calculateBestMove_fallback_cex :
    (∀ rot, rot ≤ 3 → ∀ x : Int,
      checkCollisionForTest (testPieceOf (createPiece PieceType.I) x rot)
        c1board.grid = true) ∧
    calculateBestMove c1board ≠ none := by
  have hno := fullGrid_no_legal_I
  have hsim : ∀ rot, rot < (if (createPiece PieceType.I).type = PieceType.O then 1 else 4) →
      ∀ x : Int, simulateMove c1board.grid (createPiece PieceType.I) x rot = none := by
    intro rot hrot x
    have hr3 : rot ≤ 3 := by
      rw [if_neg (by decide)] at hrot
      omega
    exact simulateMove_eq_none_of_collides (hno rot hr3 x)
  have hplan : planPiece c1board.grid (createPiece PieceType.I) = none := by
    simp only [planPiece, planFold_eq_none hsim]
  refine ⟨hno, ?_⟩
  unfold calculateBestMove
  show (match c1board.currentPiece with
    | none => none
    | some piece =>
      match planPiece c1board.grid piece with
      | some m => some m
      | none => some ⟨piece.x, 0⟩) ≠ none
  rw [show c1board.currentPiece = some (createPiece PieceType.I) from rfl]
  simp only [hplan]
  intro h
  cases h

/-! ## C2: a returned placement never collides when at least one is legal -/

theorem planStep_preserves_legal {g : Grid} {piece : ActivePiece} {rot : Nat}
    {acc : Option (Move × Int)} {x : Int}
    (h : ∀ pr : Move × Int, acc = some pr →
      simulateMove g piece pr.1.x pr.1.rotation ≠ none) :
    ∀ pr : Move × Int, planStep g piece rot acc x = some pr →
      simulateMove g piece pr.1.x pr.1.rotation ≠ none := by
  intro pr hstep
  unfold planStep at hstep
  rcases hsim : simulateMove g piece x rot with _ | rb
  · rw [hsim] at hstep
    exact h pr hstep
  · rw [hsim] at hstep
    rcases acc with _ | pr0
    · simp only [Option.some_inj] at hstep
      rw [← hstep]
      simp only
      rw [hsim]
      simp
    · simp only at hstep
      split at hstep
      · simp only [Option.some_inj] at hstep
        rw [← hstep]
        simp only
        rw [hsim]
        simp
      · exact h pr hstep

theorem foldl_planStep_legal {g : Grid} {piece : ActivePiece} {rot : Nat}
    (xs : List Int) (acc : Option (Move × Int))
    (h : ∀ pr : Move × Int, acc = some pr →
      simulateMove g piece pr.1.x pr.1.rotation ≠ none) :
    ∀ pr : Move × Int, xs.foldl (planStep g piece rot) acc = some pr →
      simulateMove g piece pr.1.x pr.1.rotation ≠ none := by
  induction xs generalizing acc with
  | nil => exact h
  | cons x xs ih =>
    rw [List.foldl_cons]
    exact ih (planStep g piece rot acc x) (planStep_preserves_legal h)

theorem foldl_rotations_legal {g : Grid} {piece : ActivePiece}
    (rots : List Nat) (acc : Option (Move × Int))
    (h : ∀ pr : Move × Int, acc = some pr →
      simulateMove g piece pr.1.x pr.1.rotation ≠ none) :
    ∀ pr : Move × Int,
      rots.foldl
        (fun best rotation =>
          (xCandidates (rotN rotation piece.shape)).foldl (planStep g piece rotation) best)
        acc = some pr →
      simulateMove g piece pr.1.x pr.1.rotation ≠ none := by
  induction rots generalizing acc with
  | nil => exact h
  | cons rot rots ih =>
    rw [List.foldl_cons]
    exact ih _ (foldl_planStep_legal _ acc h)

theorem planFold_legal {g : Grid} {piece : ActivePiece} {maxR : Nat}
    {pr : Move × Int} (h : planFold g piece maxR = some pr) :
    simulateMove g piece pr.1.x pr.1.rotation ≠ none := by
  unfold planFold at h
  exact foldl_rotations_legal _ none (by intro pr h1; cases h1) pr h

theorem planStep_ne_none_of_some {g : Grid} {piece : ActivePiece} {rot : Nat}
    {pr : Move × Int} {x : Int} : planStep g piece rot (some pr) x ≠ none := by
  unfold planStep
  rcases hsim : simulateMove g piece x rot with _ | rb
  · simp
  · simp only
    split <;> simp

theorem planStep_ne_none_of_sim {g : Grid} {piece : ActivePiece} {rot : Nat}
    {acc : Option (Move × Int)} {x : Int}
    (h : simulateMove g piece x rot ≠ none) :
    planStep g piece rot acc x ≠ none := by
  unfold planStep
  rcases hsim : simulateMove g piece x rot with _ | rb
  · exact absurd hsim h
  · rcases acc with _ | pr0
    · simp
    · simp only
      split <;> simp

theorem foldl_planStep_ne_none {g : Grid} {piece : ActivePiece} {rot : Nat}
    (xs : List Int) (acc : Option (Move × Int)) (h : acc ≠ none) :
    xs.foldl (planStep g piece rot) acc ≠ none := by
  induction xs generalizing acc with
  | nil => exact h
  | cons x xs ih =>
    rw [List.foldl_cons]
    have hstep : planStep g piece rot acc x ≠ none := by
      rcases acc with _ | pr0
      · exact absurd rfl h
      · exact planStep_ne_none_of_some
    exact ih _ hstep

theorem foldl_rotations_ne_none {g : Grid} {piece : ActivePiece}
    (rots : List Nat) (acc : Option (Move × Int)) (h : acc ≠ none) :
    rots.foldl
      (fun best rotation =>
        (xCandidates (rotN rotation piece.shape)).foldl (planStep g piece rotation) best)
      acc ≠ none := by
  induction rots generalizing acc with
  | nil => exact h
  | cons rot rots ih =>
    rw [List.foldl_cons]
    exact ih _ (foldl_planStep_ne_none _ acc h)

theorem foldl_planStep_ne_none_of_mem {g : Grid} {piece : ActivePiece} {rot : Nat}
    {xs : List Int} {x : Int} (hmem : x ∈ xs)
    (hsim : simulateMove g piece x rot ≠ none) (acc : Option (Move × Int)) :
    xs.foldl (planStep g piece rot) acc ≠ none := by
  obtain ⟨l1, l2, rfl⟩ := List.mem_iff_append.mp hmem
  rw [List.foldl_append, List.foldl_cons]
  exact foldl_planStep_ne_none l2 _ (planStep_ne_none_of_sim hsim)

theorem planFold_ne_none_of_cand {g : Grid} {piece : ActivePiece} {maxR : Nat}
    {rotc : Nat} {x : Int} (hrot : rotc < maxR)
    (hx : x ∈ xCandidates (rotN rotc piece.shape))
    (hsim : simulateMove g piece x rotc ≠ none) :
    planFold g piece maxR ≠ none := by
  unfold planFold
  obtain ⟨l1, l2, hsplit⟩ := List.mem_iff_append.mp (List.mem_range.mpr hrot)
  rw [hsplit, List.foldl_append, List.foldl_cons]
  exact foldl_rotations_ne_none l2 _ (foldl_planStep_ne_none_of_mem hx hsim _)

theorem mem_xCandidates_iff (s : Shape) (x : Int) :
    x ∈ xCandidates s ↔
      -(minMaxCol s).1 ≤ x ∧
        x ≤ (GRID_WIDTH : Int) - ((minMaxCol s).2 - (minMaxCol s).1 + 1) - (minMaxCol s).1 := by
  rcases hmm : minMaxCol s with ⟨mn, mx⟩
  unfold xCandidates
  rw [hmm]
  constructor
  · intro hmem
    obtain ⟨i, hi, hx⟩ := List.mem_map.mp hmem
    rw [List.mem_range] at hi
    rw [← hx]
    constructor
    · omega
    · omega
  · intro ⟨h1, h2⟩
    apply List.mem_map.mpr
    refine ⟨(x + mn).toNat, List.mem_range.mpr (by omega), by omega⟩

/-- For each canonical shape and each of its first four rotations, some
occupied cell realises the minimum occupied column and some occupied cell
realises the maximum occupied column computed by the planner's
bounding-box scan. -/
theorem shape_bounds_facts (t : PieceType) : ∀ j, j < 4 →
    (∃ r, r < (rotN j (pieceShape t)).length ∧
      ∃ c, c < (rowAt (rotN j (pieceShape t)) r).length ∧
        shapeCell (rotN j (pieceShape t)) r c = true ∧
          (c : Int) = (minMaxCol (rotN j (pieceShape t))).1) ∧
    (∃ r, r < (rotN j (pieceShape t)).length ∧
      ∃ c, c < (rowAt (rotN j (pieceShape t)) r).length ∧
        shapeCell (rotN j (pieceShape t)) r c = true ∧
          (c : Int) = (minMaxCol (rotN j (pieceShape t))).2) := by
  cases t <;> decide

theorem rotN_add (a b : Nat) (s : Shape) : rotN a (rotN b s) = rotN (b + a) s := by
  induction b generalizing s with
  | zero =>
    show rotN a s = rotN (0 + a) s
    rw [Nat.zero_add]
  | succ b ih =>
    show rotN a (rotN b (rotateShape s)) = rotN (b + 1 + a) s
    rw [ih (rotateShape s)]
    show rotN (b + a) (rotateShape s) = rotN (b + 1 + a) s
    have : b + 1 + a = (b + a) + 1 := by omega
    rw [this]
    rfl

theorem rotN_four (t : PieceType) : rotN 4 (pieceShape t) = pieceShape t := by
  cases t <;> decide

theorem rotN_mod (t : PieceType) : ∀ n, rotN n (pieceShape t) = rotN (n % 4) (pieceShape t) := by
  intro n
  induction n using Nat.strong_induction_on with
  | _ n ih =>
    by_cases h : n < 4
    · rw [Nat.mod_eq_of_lt h]
    · obtain ⟨m, rfl⟩ : ∃ m, n = m + 4 := ⟨n - 4, by omega⟩
      have h1 : rotN (m + 4) (pieceShape t) = rotN m (pieceShape t) := by
        have := rotN_add m 4 (pieceShape t)
        rw [rotN_four t] at this
        rw [show m + 4 = 4 + m from by omega]
        exact this.symm
      rw [h1, ih m (by omega)]
      congr 1
      omega

theorem rotN_O (n : Nat) : rotN n (pieceShape PieceType.O) = pieceShape PieceType.O := by
  induction n with
  | zero => rfl
  | succ n ih =>
    show rotN n (rotateShape (pieceShape PieceType.O)) = pieceShape PieceType.O
    rw [show rotateShape (pieceShape PieceType.O) = pieceShape PieceType.O from by decide]
    exact ih

theorem testPiece_legal_bounds {g : Grid} {piece : ActivePiece} {x : Int} {rot : Nat}
    {r c : Nat} (hleg : collides (testPieceOf piece x rot) g = false)
    (hr : r < (rotN rot piece.shape).length)
    (hc : c < (rowAt (rotN rot piece.shape) r).length)
    (hcell : shapeCell (rotN rot piece.shape) r c = true) :
    0 ≤ x + (c : Int) ∧ x + (c : Int) < (GRID_WIDTH : Int) := by
  have h := (collides_eq_false_iff (testPieceOf piece x rot) g).mp hleg r hr c hc hcell
  exact ⟨h.1, h.2.1⟩

/-- A legal test placement lies inside the x-range the planner enumerates. -/
theorem legal_mem_xCandidates {g : Grid} {piece : ActivePiece} {x : Int} {rot : Nat}
    (hleg : collides (testPieceOf piece x rot) g = false)
    (hmin : ∃ r, r < (rotN rot piece.shape).length ∧
      ∃ c, c < (rowAt (rotN rot piece.shape) r).length ∧
        shapeCell (rotN rot piece.shape) r c = true ∧
          (c : Int) = (minMaxCol (rotN rot piece.shape)).1)
    (hmax : ∃ r, r < (rotN rot piece.shape).length ∧
      ∃ c, c < (rowAt (rotN rot piece.shape) r).length ∧
        shapeCell (rotN rot piece.shape) r c = true ∧
          (c : Int) = (minMaxCol (rotN rot piece.shape)).2) :
    x ∈ xCandidates (rotN rot piece.shape) := by
  obtain ⟨r1, hr1, c1, hc1, hcell1, hmn⟩ := hmin
  obtain ⟨r2, hr2, c2, hc2, hcell2, hmx⟩ := hmax
  have h1 := testPiece_legal_bounds hleg hr1 hc1 hcell1
  have h2 := testPiece_legal_bounds hleg hr2 hc2 hcell2
  rw [mem_xCandidates_iff]
  omega

/-- C2: whenever the current piece (a rotation of its canonical shape)
admits at least one legal placement — some rotation 0..3 and column x at
which the rotated piece sits at `(x, 0)` without collision — the move
returned by `calculateBestMove` is itself legal: `simulateMove` on the
returned `(x, rotation)` pair does not return null. -/
theorem planner_returns_legal (b : Board) (p : ActivePiece)
    (hp : b.currentPiece = some p)
    (n : Nat) (hwf : p.shape = rotN n (pieceShape p.type))
    (rot : Nat) (hrot : rot ≤ 3) (x : Int)
    (hleg : checkCollisionForTest (testPieceOf p x rot) b.grid = false) :
    ∃ m : Move, calculateBestMove b = some m ∧
      simulateMove b.grid p m.x m.rotation ≠ none := by
  have hcand : ∃ rotc, rotc < (if p.type = PieceType.O then 1 else 4) ∧
      x ∈ xCandidates (rotN rotc p.shape) ∧ simulateMove b.grid p x rotc ≠ none := by
    by_cases hO : p.type = PieceType.O
    · have hshape : p.shape = pieceShape PieceType.O := by
        rw [hwf, hO, rotN_O]
      have hrotshape : ∀ k, rotN k p.shape = pieceShape PieceType.O := by
        intro k
        rw [hshape, rotN_O]
      have htp : testPieceOf p x rot = testPieceOf p x 0 := by
        unfold testPieceOf
        rw [hrotshape rot, hrotshape 0]
      rw [htp] at hleg
      have hlegc : collides (testPieceOf p x 0) b.grid = false := hleg
      have hsim : simulateMove b.grid p x 0 ≠ none := by
        unfold simulateMove
        rw [if_neg (by rw [hlegc]; simp)]
        simp
      refine ⟨0, by rw [if_pos hO]; omega, ?_, hsim⟩
      have hfacts := shape_bounds_facts PieceType.O 0 (by omega)
      have hrw : rotN 0 (pieceShape PieceType.O) = rotN 0 p.shape := by
        rw [hrotshape 0]
        rfl
      rw [hrw] at hfacts
      exact legal_mem_xCandidates hlegc hfacts.1 hfacts.2
    · have hshape : rotN rot p.shape = rotN ((n + rot) % 4) (pieceShape p.type) := by
        rw [hwf, rotN_add, ← rotN_mod]
      have hlegc : collides (testPieceOf p x rot) b.grid = false := hleg
      have hsim : simulateMove b.grid p x rot ≠ none := by
        unfold simulateMove
        rw [if_neg (by rw [hlegc]; simp)]
        simp
      refine ⟨rot, by rw [if_neg hO]; omega, ?_, hsim⟩
      have hfacts := shape_bounds_facts p.type ((n + rot) % 4) (by omega)
      rw [← hshape] at hfacts
      exact legal_mem_xCandidates hlegc hfacts.1 hfacts.2
  obtain ⟨rotc, hrotc, hxmem, hsim⟩ := hcand
  have hne : planFold b.grid p (if p.type = PieceType.O then 1 else 4) ≠ none :=
    planFold_ne_none_of_cand hrotc hxmem hsim
  obtain ⟨pr, hpr⟩ : ∃ pr, planFold b.grid p (if p.type = PieceType.O then 1 else 4) = some pr := by
    rcases h : planFold b.grid p (if p.type = PieceType.O then 1 else 4) with _ | pr
    · exact absurd h hne
    · exact ⟨pr, rfl⟩
  refine ⟨pr.1, ?_, planFold_legal hpr⟩
  unfold calculateBestMove
  rw [hp]
  simp only [planPiece, hpr]

theorem planner_returns_legal_witness :
    ∃ m : Move,
      calculateBestMove { createBoard 0 with currentPiece := some (createPiece PieceType.I) } =
        some m ∧
      simulateMove ({ createBoard 0 with
          currentPiece := some (createPiece PieceType.I) } : Board).grid
        (createPiece PieceType.I) m.x m.rotation ≠ none :=
  planner_returns_legal
    { createBoard 0 with currentPiece := some (createPiece PieceType.I) }
    (createPiece PieceType.I) rfl 0 rfl 0 (by omega) 3 (by decide)

/-! ## C4: locked blocks never overlap the active piece -/

theorem handleBoardGameOver_currentPiece (b : Board) :
    (handleBoardGameOver b).currentPiece = none := by
  unfold handleBoardGameOver
  dsimp only
  split <;> rfl

theorem spawnNewPiece_currentPiece_cases (b : Board) (rnd1 rnd2 : PieceType) :
    PieceOK (spawnNewPiece b rnd1 rnd2) := by
  unfold spawnNewPiece
  by_cases hc : checkCollision
      { b with nextPiece := some rnd2
               currentPiece := some (createPiece (b.nextPiece.getD rnd1)) } = true
  · rw [if_pos hc]
    intro p hp
    rw [handleBoardGameOver_currentPiece] at hp
    cases hp
  · rw [if_neg hc]
    intro p hp
    obtain rfl : createPiece (b.nextPiece.getD rnd1) = p := Option.some.inj hp
    have hfalse : checkCollision
        { b with nextPiece := some rnd2
                 currentPiece := some (createPiece (b.nextPiece.getD rnd1)) } = false := by
      cases h : checkCollision
          { b with nextPiece := some rnd2
                   currentPiece := some (createPiece (b.nextPiece.getD rnd1)) }
      · rfl
      · exact absurd h hc
    exact hfalse

theorem lockPiece_currentPiece (b : Board) (p : ActivePiece)
    (hp : b.currentPiece = some p) : (lockPiece b).currentPiece = none := by
  unfold lockPiece
  rw [hp]
  dsimp only
  split
  · split <;> rfl
  · rfl

theorem pieceOK_lock (b : Board) (h : PieceOK b) : PieceOK (lockPiece b) := by
  rcases hp : b.currentPiece with _ | p
  · have : lockPiece b = b := by unfold lockPiece; rw [hp]
    rw [this]; exact h
  · intro q hq
    rw [lockPiece_currentPiece b p hp] at hq
    cases hq

theorem pieceOK_down (b : Board) (rnd1 rnd2 : PieceType) (h : PieceOK b) :
    PieceOK (movePieceDown b rnd1 rnd2).1 := by
  unfold movePieceDown
  rcases hp : b.currentPiece with _ | p
  · exact h
  · dsimp only
    by_cases hc : collides { p with y := p.y + 1 } b.grid = true
    · rw [if_pos hc]
      exact spawnNewPiece_currentPiece_cases _ rnd1 rnd2
    · rw [if_neg hc]
      intro q hq
      obtain rfl : ({ p with y := p.y + 1 } : ActivePiece) = q := Option.some.inj hq
      cases h2 : collides { p with y := p.y + 1 } b.grid
      · rfl
      · exact absurd h2 hc

theorem pieceOK_horiz (b : Board) (direction : Int) (h : PieceOK b) :
    PieceOK (movePieceHorizontally b direction).1 := by
  unfold movePieceHorizontally
  rcases hp : b.currentPiece with _ | p
  · exact h
  · dsimp only
    by_cases hc : collides { p with x := p.x + direction } b.grid = true
    · rw [if_pos hc]; exact h
    · rw [if_neg hc]
      intro q hq
      obtain rfl : ({ p with x := p.x + direction } : ActivePiece) = q := Option.some.inj hq
      cases h2 : collides { p with x := p.x + direction } b.grid
      · rfl
      · exact absurd h2 hc

theorem pieceOK_rot (b : Board) (h : PieceOK b) : PieceOK (rotatePiece b).1 := by
  unfold rotatePiece
  rcases hp : b.currentPiece with _ | p
  · exact h
  · dsimp only
    by_cases hO : p.type = PieceType.O
    · rw [if_pos hO]; exact h
    · rw [if_neg hO]
      repeat' split
      all_goals
        first
        | exact h
        | (rename_i hcond
           intro q hq
           obtain rfl := Option.some.inj hq
           simpa using hcond)

theorem pieceOK_hard (b : Board) (rnd1 rnd2 : PieceType) (h : PieceOK b) :
    PieceOK (hardDrop b rnd1 rnd2) := by
  unfold hardDrop
  rcases hp : b.currentPiece with _ | p
  · exact h
  · exact spawnNewPiece_currentPiece_cases _ rnd1 rnd2

theorem reachable_pieceOK {b : Board} (h : ReachableB b) : PieceOK b := by
  induction h with
  | init i => intro p hp; cases hp
  | step hr hs ih =>
    cases hs with
    | spawn rnd1 rnd2 => exact spawnNewPiece_currentPiece_cases _ rnd1 rnd2
    | down rnd1 rnd2 => exact pieceOK_down _ rnd1 rnd2 ih
    | horiz direction => exact pieceOK_horiz _ direction ih
    | rot => exact pieceOK_rot _ ih
    | hard rnd1 rnd2 => exact pieceOK_hard _ rnd1 rnd2 ih
    | lock => exact pieceOK_lock _ ih

/-- C4: in every board state reachable through the public operations
(spawn, downward/horizontal translate, rotate, hard drop, and the lock
step with its line clearing), whenever an active piece exists, no grid
cell holding a locked block coincides with a cell occupied by the active
piece. -/
theorem no_overlap (b : Board) (hreach : ReachableB b) (p : ActivePiece)
    (hp : b.currentPiece = some p) (y x : Int)
    (hocc : gridOccupied b.grid y x) : ¬ pieceOccupies p y x := by
  have hok := reachable_pieceOK hreach p hp
  rw [collides_eq_false_iff] at hok
  rintro ⟨r, hr, c, hc, hcell, hy, hx⟩
  obtain ⟨hy0, hyH, hx0, hxW, hsome⟩ := hocc
  obtain ⟨_, _, _, h4⟩ := hok r hr c hc hcell
  rw [← hy, ← hx] at h4
  rw [h4 (by omega)] at hsome
  cases hsome

theorem no_overlap_witness :
    ReachableB (hardDrop (spawnNewPiece (createBoard 0) PieceType.I PieceType.I)
      PieceType.L PieceType.L) ∧
    ¬ pieceOccupies (createPiece PieceType.I) 19 3 := by
  have hreach : ReachableB (hardDrop (spawnNewPiece (createBoard 0) PieceType.I PieceType.I)
      PieceType.L PieceType.L) :=
    ReachableB.step
      (ReachableB.step (ReachableB.init 0)
        (BoardStep.spawn (createBoard 0) PieceType.I PieceType.I))
      (BoardStep.hard (spawnNewPiece (createBoard 0) PieceType.I PieceType.I)
        PieceType.L PieceType.L)
  refine ⟨hreach, ?_⟩
  exact no_overlap _ hreach (createPiece PieceType.I) (by decide) 19 3 (by decide)

/-! ## C7: executor step bound

A lock stamps the piece's occupied, in-bounds cells into the grid, and a
resting `O` piece always has all four cells in range, so on a run started
from the empty grid a lock has occurred by step `n` exactly when the grid
at step `n` differs from the empty grid (a single `O` piece cannot
complete a 10-wide row, so line clearing cannot re-empty it within these
runs). -/

set_option maxRecDepth 10000 in
set_option maxHeartbeats 4000000 in
/-- The planner's choice for an `O` piece on the empty grid: column 0
keeps the surface bumpiness lowest (one step instead of two), so the
first-found maximum is `{x: 0, rotation: 0}`. -/
theorem planPiece_O_empty_base :
    planPiece createEmptyGrid (opiece 0 1 0) = some ⟨0, 0⟩ := rfl

/-- `calculateBestMove` reads only the piece's type, shape and color, so
its value does not depend on the piece's position or rotation counter. -/
theorem planPiece_ignores_position (g : Grid) (t : PieceType) (s : Shape) (c : String)
    (x1 y1 x2 y2 : Int) (r1 r2 : Nat) :
    planPiece g ⟨t, s, x1, y1, c, r1⟩ = planPiece g ⟨t, s, x2, y2, c, r2⟩ := rfl

theorem planPiece_O_empty (x y : Int) (r : Nat) :
    planPiece createEmptyGrid (opiece x y r) = some ⟨0, 0⟩ :=
  (planPiece_ignores_position createEmptyGrid PieceType.O (pieceShape PieceType.O)
    (pieceColor PieceType.O) x y 0 1 r 0).trans planPiece_O_empty_base

theorem calculateBestMove_O_empty (b : Board) (x y : Int) (r : Nat)
    (hg : b.grid = createEmptyGrid) (hp : b.currentPiece = some (opiece x y r)) :
    calculateBestMove b = some ⟨0, 0⟩ := by
  unfold calculateBestMove
  rw [hp]
  dsimp only
  rw [hg, planPiece_O_empty]

theorem stepAI_plan (b : Board) (rnd1 rnd2 : PieceType) (m : Move) (p : ActivePiece)
    (hen : b.aiEnabled = true) (hpc : b.currentPiece = some p)
    (ht : b.aiTargetPosition = none) (hm : b.aiMoving = false)
    (hcalc : calculateBestMove b = some m) :
    stepAI b rnd1 rnd2 =
      executeAIMove { b with aiTargetPosition := some m, aiMoving := true } rnd1 rnd2 := by
  unfold stepAI
  rw [hen, hpc]
  dsimp only
  rw [ht, hm, hcalc]
  simp

/-- One descent cycle of the soft-drop run: with no pending target the
step replans (target `⟨0, 0⟩`), finds the piece aligned, and issues a
single downward move. -/
theorem c7desc_step (y : Int)
    (hcol : collides (opiece 0 (y + 1) 0) createEmptyGrid = false) :
    stepAI (c7desc y) PieceType.O PieceType.O = c7desc (y + 1) := by
  rw [stepAI_plan (c7desc y) PieceType.O PieceType.O ⟨0, 0⟩ (opiece 0 y 0) rfl rfl rfl rfl
    (calculateBestMove_O_empty (c7desc y) 0 y 0 rfl rfl)]
  have hcol1 : collides { opiece 0 y 0 with y := y + 1 } createEmptyGrid = false := hcol
  unfold executeAIMove movePieceDown
  simp only [c7desc, createBoard, opiece] at hcol1 ⊢
  simp [hcol1]

theorem iterAI_shift (k : Nat) (b b1 : Board)
    (h : stepAI b PieceType.O PieceType.O = b1) :
    iterAI (k + 1) b = iterAI k b1 := by
  rw [show iterAI (k + 1) b = iterAI k (stepAI b PieceType.O PieceType.O) from rfl, h]

theorem iterAI_succ_back (k : Nat) (b : Board) :
    iterAI (k + 1) b = stepAI (iterAI k b) PieceType.O PieceType.O := by
  induction k generalizing b with
  | zero => rfl
  | succ n ih =>
    show iterAI (n + 1) (stepAI b PieceType.O PieceType.O) =
      stepAI (iterAI (n + 1) b) PieceType.O PieceType.O
    rw [ih, show iterAI (n + 1) b = iterAI n (stepAI b PieceType.O PieceType.O) from rfl]

theorem c7_move4 (hd : Bool) : stepAI (c7move hd 4) PieceType.O PieceType.O = c7move hd 3 := rfl
theorem c7_move3 (hd : Bool) : stepAI (c7move hd 3) PieceType.O PieceType.O = c7move hd 2 := rfl
theorem c7_move2 (hd : Bool) : stepAI (c7move hd 2) PieceType.O PieceType.O = c7move hd 1 := rfl
theorem c7_move1 (hd : Bool) : stepAI (c7move hd 1) PieceType.O PieceType.O = c7move hd 0 := rfl
theorem c7_drop_soft : stepAI (c7move false 0) PieceType.O PieceType.O = c7desc 1 := rfl

/-- C7 counterexample: a fixed autonomous board without the hard-drop
capability — empty grid, freshly spawned `O` piece, pending target
`{x: 0, rotation: 0}` produced by the planner itself (first conjunct) —
runs `GRID_WIDTH + 4 = 14` executor steps without ever locking the piece:
four horizontal steps, then one downward move per step, leaving the piece
at row 10 of the 20-row grid with the grid still empty (any lock of this
piece stamps four cells into the grid and cannot complete a 10-wide row,
so the grid records a lock permanently). The claimed bound of
(board width + 4) steps to a lock fails. -/
theorem executor_bound_cex :
    calculateBestMove { c7move false 4 with aiTargetPosition := none, aiMoving := false } =
      some ⟨0, 0⟩ ∧
    ¬ ∃ n, n ≤ GRID_WIDTH + 4 ∧ (iterAI n (c7move false 4)).grid ≠ createEmptyGrid := by
  constructor
  · exact calculateBestMove_O_empty _ 4 0 0 rfl rfl
  · have hd1 : stepAI (c7desc 1) PieceType.O PieceType.O = c7desc 2 := c7desc_step 1 (by decide)
    have hd2 : stepAI (c7desc 2) PieceType.O PieceType.O = c7desc 3 := c7desc_step 2 (by decide)
    have hd3 : stepAI (c7desc 3) PieceType.O PieceType.O = c7desc 4 := c7desc_step 3 (by decide)
    have hd4 : stepAI (c7desc 4) PieceType.O PieceType.O = c7desc 5 := c7desc_step 4 (by decide)
    have hd5 : stepAI (c7desc 5) PieceType.O PieceType.O = c7desc 6 := c7desc_step 5 (by decide)
    have hd6 : stepAI (c7desc 6) PieceType.O PieceType.O = c7desc 7 := c7desc_step 6 (by decide)
    have hd7 : stepAI (c7desc 7) PieceType.O PieceType.O = c7desc 8 := c7desc_step 7 (by decide)
    have hd8 : stepAI (c7desc 8) PieceType.O PieceType.O = c7desc 9 := c7desc_step 8 (by decide)
    have hd9 : stepAI (c7desc 9) PieceType.O PieceType.O = c7desc 10 := c7desc_step 9 (by decide)
    have hI0 : iterAI 0 (c7move false 4) = c7move false 4 := rfl
    have hI1 : iterAI 1 (c7move false 4) = c7move false 3 :=
      (iterAI_succ_back 0 _).trans (by rw [hI0]; exact c7_move4 false)
    have hI2 : iterAI 2 (c7move false 4) = c7move false 2 :=
      (iterAI_succ_back 1 _).trans (by rw [hI1]; exact c7_move3 false)
    have hI3 : iterAI 3 (c7move false 4) = c7move false 1 :=
      (iterAI_succ_back 2 _).trans (by rw [hI2]; exact c7_move2 false)
    have hI4 : iterAI 4 (c7move false 4) = c7move false 0 :=
      (iterAI_succ_back 3 _).trans (by rw [hI3]; exact c7_move1 false)
    have hI5 : iterAI 5 (c7move false 4) = c7desc 1 :=
      (iterAI_succ_back 4 _).trans (by rw [hI4]; exact c7_drop_soft)
    have hI6 : iterAI 6 (c7move false 4) = c7desc 2 :=
      (iterAI_succ_back 5 _).trans (by rw [hI5]; exact hd1)
    have hI7 : iterAI 7 (c7move false 4) = c7desc 3 :=
      (iterAI_succ_back 6 _).trans (by rw [hI6]; exact hd2)
    have hI8 : iterAI 8 (c7move false 4) = c7desc 4 :=
      (iterAI_succ_back 7 _).trans (by rw [hI7]; exact hd3)
    have hI9 : iterAI 9 (c7move false 4) = c7desc 5 :=
      (iterAI_succ_back 8 _).trans (by rw [hI8]; exact hd4)
    have hI10 : iterAI 10 (c7move false 4) = c7desc 6 :=
      (iterAI_succ_back 9 _).trans (by rw [hI9]; exact hd5)
    have hI11 : iterAI 11 (c7move false 4) = c7desc 7 :=
      (iterAI_succ_back 10 _).trans (by rw [hI10]; exact hd6)
    have hI12 : iterAI 12 (c7move false 4) = c7desc 8 :=
      (iterAI_succ_back 11 _).trans (by rw [hI11]; exact hd7)
    have hI13 : iterAI 13 (c7move false 4) = c7desc 9 :=
      (iterAI_succ_back 12 _).trans (by rw [hI12]; exact hd8)
    have hI14 : iterAI 14 (c7move false 4) = c7desc 10 :=
      (iterAI_succ_back 13 _).trans (by rw [hI13]; exact hd9)
    rintro ⟨n, hn, hgrid⟩
    have hn14 : n ≤ 14 := by simpa [GRID_WIDTH] using hn
    interval_cases n
    · exact hgrid (congrArg Board.grid hI0)
    · exact hgrid (congrArg Board.grid hI1)
    · exact hgrid (congrArg Board.grid hI2)
    · exact hgrid (congrArg Board.grid hI3)
    · exact hgrid (congrArg Board.grid hI4)
    · exact hgrid (congrArg Board.grid hI5)
    · exact hgrid (congrArg Board.grid hI6)
    · exact hgrid (congrArg Board.grid hI7)
    · exact hgrid (congrArg Board.grid hI8)
    · exact hgrid (congrArg Board.grid hI9)
    · exact hgrid (congrArg Board.grid hI10)
    · exact hgrid (congrArg Board.grid hI11)
    · exact hgrid (congrArg Board.grid hI12)
    · exact hgrid (congrArg Board.grid hI13)
    · exact hgrid (congrArg Board.grid hI14)

set_option maxRecDepth 10000 in
/-- C7 (amended): on the same scenario with the hard-drop capability
unlocked, the executor does lock the current piece within
`GRID_WIDTH + 4` steps — four horizontal steps toward the planner's
target column, then a single hard drop that locks the piece at step 5,
leaving the grid non-empty. The bound of the claim holds for hard-drop
executors; the soft-drop path refuted above descends one row per step
instead. -/
theorem executor_bound_hard :
    calculateBestMove { c7move true 4 with aiTargetPosition := none, aiMoving := false } =
      some ⟨0, 0⟩ ∧
    ∃ n, n ≤ GRID_WIDTH + 4 ∧ (iterAI n (c7move true 4)).grid ≠ createEmptyGrid := by
  refine ⟨calculateBestMove_O_empty _ 4 0 0 rfl rfl, 5, by decide, ?_⟩
  have h5 : iterAI 5 (c7move true 4) = stepAI (c7move true 0) PieceType.O PieceType.O :=
    (iterAI_shift 4 _ _ (c7_move4 true)).trans
      ((iterAI_shift 3 _ _ (c7_move3 true)).trans
        ((iterAI_shift 2 _ _ (c7_move2 true)).trans
          ((iterAI_shift 1 _ _ (c7_move1 true)).trans rfl)))
  rw [h5]
  decide

end Idletris
